import Mathlib

/-!
# redax `MongoLog`: a shallow embedding of `src/MongoLog.cc`

The logger of the redax data-acquisition readout writes every entry to the
console, to a local file that is rotated once per calendar day, and (for
priorities at or above `fLogLevel`) to a MongoDB collection.

The embedding is state passing.  A `MongoLog` value holds the data members the
source reads and writes.  Everything the outside world decides (the clock, the
filesystem answers, whether a call throws) is supplied per call in an
environment record, and every externally visible action is recorded as an
`Event`.  C++ `int` is modelled by `Int`; the only arithmetic in the file is on
calendar fields, far from the 32-bit limits (see `Today_fits_int32`).
Undefined behaviour of the source (an index outside a `std::vector`, `sprintf`
past the end of its buffer) is modelled by `none`.  The filesystem calls of
`RotateLogFile` are the throwing overloads: a `filesystem_error` they throw leaves
`RotateLogFile` and `Entry`, which is recorded in the `Exit` of the outcome.

Not modelled: the flusher thread and the mutex (single-threaded view) and the
printf-style expansion of the message (the embedding takes the expanded text).
-/

namespace Redax

/-! ## C library pieces used by the source -/

/-- The calendar fields of C's `struct tm` that the source reads: `tm_year` counts
from 1900 and `tm_mon` from 0. -/
structure Tm where
  tm_year : Int
  tm_mon : Int
  tm_mday : Int
  tm_hour : Int
  tm_min : Int
  tm_sec : Int
deriving DecidableEq, Repr

/-- C++ `std::to_string(int)`: decimal digits, with a leading minus sign for negatives. -/
def to_string (v : Int) : String :=
  if v < 0 then "-" ++ Nat.repr v.natAbs else Nat.repr v.toNat

/-- Left padding with zeros up to `w` characters, as done by the `0` flag of `printf`. -/
def zeroFill (w : Nat) (digits : String) : String :=
  String.mk (List.replicate (w - digits.length) (Char.ofNat 48)) ++ digits

/-- The `printf` conversions `%0wi` and `%0wd`: at least `w` characters, zeros inserted
after the sign. -/
def fmt0 (w : Nat) (v : Int) : String :=
  if v < 0 then "-" ++ zeroFill (w - 1) (Nat.repr v.natAbs)
  else zeroFill w (Nat.repr v.toNat)

/-- What `sprintf` writes into a buffer with room for `cap` characters and the
terminating NUL; `none` when the text would run past the buffer. -/
def sprintfInto (cap : Nat) (text : String) : Option String :=
  if text.length ≤ cap then some text else none

/-- Path concatenation `operator/` of `std::experimental::filesystem::path`: a separator
is inserted unless the left side is empty or already ends in one, or the right
side is empty or starts with one. -/
def pathAppend (p q : String) : String :=
  if p.isEmpty || p.back == (Char.ofNat 47) || q.isEmpty || q.front == (Char.ofNat 47) then p ++ q
  else p ++ "/" ++ q

/-- Stream insertion of a `path`: the text is written with `std::quoted`, between double
quotes and with a backslash before every double quote and backslash. -/
def quoted (s : String) : String :=
  let esc (c : Char) : List Char :=
    if c == Char.ofNat 34 || c == Char.ofNat 92 then [Char.ofNat 92, c] else [c]
  String.mk (Char.ofNat 34 :: (s.toList.flatMap esc ++ [Char.ofNat 34]))

/-! ## Data members and observable actions -/

/-- The dynamic type of the logger: `MongoLog_nT` overrides the two virtual functions
`OutputDirectory` and `LogFileName`. -/
inductive LoggerClass where
  | MongoLog
  | MongoLog_nT
deriving DecidableEq, Repr

/-- The document built in `Entry` for `insert_one`. -/
structure Document where
  user : String
  message : String
  priority : Int
  runid : Int
deriving DecidableEq, Repr

/-- The externally visible actions of the logger, in program order. -/
inductive Event where
  /-- Text sent to `std::cout`. -/
  | console (text : String)
  /-- The call `fOutfile.close()`. -/
  | close
  /-- The call `fOutfile.open(path, out | app)` and whether the stream is open afterwards. -/
  | openAppend (path : String) (ok : Bool)
  /-- Text inserted into `fOutfile`; it reaches a file only when the stream is open. -/
  | fileWrite (text : String) (streamOpen : Bool)
  /-- The call `filesystem::remove(path)`. -/
  | remove (path : String)
  /-- The call `fCollection.insert_one(doc)`; `ok = false` when it throws. -/
  | insert_one (doc : Document) (ok : Bool)
deriving DecidableEq, Repr

/-- The data members of `MongoLog` read or written by the modelled functions.
`fOutfile` is the path of the open file, `none` while the stream is closed.
`fPriorities` is declared in `MongoLog.hh`, which is not part of the sources at hand,
so the table is a member whose contents are left open. -/
structure MongoLog where
  dynamicType : LoggerClass
  fPriorities : List String
  fLogLevel : Int
  fHostname : String
  fDeleteAfterDays : Int
  fFlushPeriod : Int
  fOutputDir : String
  fRunId : Int
  fToday : Int
  fOutfile : Option String
deriving DecidableEq, Repr

/-- The constant `REDAX_BUILD_COMMIT` when the build does not define it. -/
def REDAX_BUILD_COMMIT : String := "UNKNOWN"

/-- The constructor `MongoLog::MongoLog` (named `ctor`: a Lean structure cannot hold a
function of its own name).  It assigns `fLogLevel` twice, first 0 and at the end 1.
`fToday` is not assigned by the constructor and the label table is initialised in the
header, so both come in as arguments.  The stream `fOutfile` starts closed. -/
def MongoLog.ctor (dynamicType : LoggerClass) (fPriorities : List String) (fToday : Int)
    (DeleteAfterDays : Int) (log_dir host : String) : MongoLog × List Event :=
  let self : MongoLog :=
    { dynamicType := dynamicType
      fPriorities := fPriorities
      fLogLevel := 0
      fHostname := host
      fDeleteAfterDays := DeleteAfterDays
      fFlushPeriod := 5
      fOutputDir := log_dir
      fRunId := -1
      fToday := fToday
      fOutfile := none }
  let self := { self with fLogLevel := 1 }
  (self, [Event.console ("Local file logging to " ++ log_dir ++ "\n")])

/-! ## Formatting and paths -/

/-- The function `MongoLog::FormatTime`: `sprintf` of
`%04i-%02i-%02i %02i:%02i:%02i.%03i` into the 23 characters of the string
`YYYY-MM-DD HH:mm:SS.SSS`. -/
def MongoLog.FormatTime (date : Tm) (ms : Int) : Option String :=
  sprintfInto 23
    (fmt0 4 (date.tm_year + 1900) ++ "-" ++ fmt0 2 (date.tm_mon + 1) ++ "-" ++
      fmt0 2 date.tm_mday ++ " " ++ fmt0 2 date.tm_hour ++ ":" ++ fmt0 2 date.tm_min ++
      ":" ++ fmt0 2 date.tm_sec ++ "." ++ fmt0 3 ms)

/-- The function `MongoLog::Today`: the day as the integer `YYYYMMDD`. -/
def MongoLog.Today (date : Tm) : Int :=
  (date.tm_year + 1900) * 10000 + (date.tm_mon + 1) * 100 + date.tm_mday

/-- The function `MongoLog::LogFileName` of the base class. -/
def MongoLog.LogFileName (self : MongoLog) (date : Tm) : String :=
  to_string (MongoLog.Today date) ++ "_" ++ self.fHostname ++ ".log"

/-- The function `MongoLog::OutputDirectory` of the base class. -/
def MongoLog.OutputDirectory (self : MongoLog) (_date : Tm) : String :=
  self.fOutputDir

/-- The function `MongoLog_nT::OutputDirectory`: `sprintf` of `%02d.%02d` into
`char temp[6]`, then `fOutputDir / to_string(year) / temp`. -/
def MongoLog_nT.OutputDirectory (self : MongoLog) (date : Tm) : Option String :=
  (sprintfInto 5 (fmt0 2 (date.tm_mon + 1) ++ "." ++ fmt0 2 date.tm_mday)).map fun temp =>
    pathAppend (pathAppend self.fOutputDir (to_string (date.tm_year + 1900))) temp

/-- The function `MongoLog_nT::LogFileName`. -/
def MongoLog_nT.LogFileName (self : MongoLog) (_date : Tm) : String :=
  self.fHostname ++ ".log"

/-- Virtual dispatch of `OutputDirectory`. -/
def MongoLog.virtualOutputDirectory (self : MongoLog) (date : Tm) : Option String :=
  match self.dynamicType with
  | LoggerClass.MongoLog => some (MongoLog.OutputDirectory self date)
  | LoggerClass.MongoLog_nT => MongoLog_nT.OutputDirectory self date

/-- Virtual dispatch of `LogFileName`. -/
def MongoLog.virtualLogFileName (self : MongoLog) (date : Tm) : String :=
  match self.dynamicType with
  | LoggerClass.MongoLog => MongoLog.LogFileName self date
  | LoggerClass.MongoLog_nT => MongoLog_nT.LogFileName self date

/-- The function `MongoLog::LogFilePath`: `OutputDirectory(date) / LogFileName(date)`,
both calls virtual. -/
def MongoLog.LogFilePath (self : MongoLog) (date : Tm) : Option String :=
  (MongoLog.virtualOutputDirectory self date).map fun dir =>
    pathAppend dir (MongoLog.virtualLogFileName self date)

/-! ## Rotation -/

/-- Unchecked `std::vector::operator[]` with an `int` index: defined only inside the
vector (a negative index converts to a huge `size_t`). -/
def vectorAt {α : Type} (v : List α) (i : Int) : Option α :=
  if 0 ≤ i then v.get? i.toNat else none

/-- The table `days_per_month` of `RotateLogFile`, after the adjustment
`if (today.tm_year%4 == 0) days_per_month[1] += 1`; `%` of C++ truncates. -/
def MongoLog.days_per_month (today : Tm) : List Int :=
  let days_per_month : List Int := [31, 28, 31, 30, 31, 30, 31, 31, 30, 31, 30, 31]
  if Int.tmod today.tm_year 4 = 0 then days_per_month.set 1 (days_per_month.getD 1 0 + 1)
  else days_per_month

/-- The date `last_week` computed in `RotateLogFile` (lines 94 to 105): `today` moved
back by `fDeleteAfterDays` days with at most one month borrowed. -/
def MongoLog.last_week (fDeleteAfterDays : Int) (today : Tm) : Option Tm :=
  let days_per_month := MongoLog.days_per_month today
  let last_week : Tm := { today with tm_mday := today.tm_mday - fDeleteAfterDays }
  if last_week.tm_mday ≤ 0 then
    let last_week : Tm := { last_week with tm_mon := last_week.tm_mon - 1 }
    let last_week : Tm :=
      if last_week.tm_mon < 0 then
        { last_week with tm_year := last_week.tm_year - 1, tm_mon := 11 }
      else last_week
    (vectorAt days_per_month last_week.tm_mon).map fun len =>
      { last_week with tm_mday := last_week.tm_mday + len }
  else some last_week

/-- The answer of a call into the filesystem library.  The source uses the overloads
without an `error_code` argument: they return a Boolean, or throw a
`filesystem_error` when the operating system reports an error. -/
inductive FsAnswer where
  | value (b : Bool)
  | filesystem_error
deriving DecidableEq, Repr

/-- How control leaves `RotateLogFile` or `Entry`: by a `return` with a value, or by a
`filesystem_error` on its way to the caller (neither function catches it). -/
inductive Exit where
  | returned (value : Int)
  | threw
deriving DecidableEq, Repr

/-- What the outside world answers during one call of `RotateLogFile`. -/
structure RotateEnv where
  /-- The calendar part of `Now()`. -/
  today : Tm
  /-- The millisecond part of `Now()`. -/
  ms : Int
  /-- The answer of `fs::exists(pp)` for the parent directory. -/
  pp_exists : FsAnswer
  /-- The answer of `fs::create_directories(pp)`, asked only when `pp` does not exist: true
  when the directory was created, false when nothing had to be created, and a
  `filesystem_error` when it cannot be created. -/
  create_directories : FsAnswer
  /-- Whether `fOutfile.is_open()` holds after `fOutfile.open`. -/
  open_ok : Bool
  /-- The answer of `filesystem::exists(p)` for the expired file name. -/
  old_exists : FsAnswer
  /-- The answer of `filesystem::remove(p)`, asked only when the expired file exists. -/
  remove : FsAnswer
deriving DecidableEq, Repr

/-- The outcome of `RotateLogFile`: how it was left, the logger afterwards, the actions. -/
structure RotateResult where
  exit : Exit
  self : MongoLog
  events : List Event
deriving DecidableEq, Repr

/-- The condition `!fs::exists(pp) && !fs::create_directories(pp)` of line 82, evaluated
from left to right with short circuit; either call may throw. -/
def RotateEnv.directoryMissing (env : RotateEnv) : FsAnswer :=
  match env.pp_exists with
  | FsAnswer.filesystem_error => FsAnswer.filesystem_error
  | FsAnswer.value true => FsAnswer.value false
  | FsAnswer.value false =>
    match env.create_directories with
    | FsAnswer.filesystem_error => FsAnswer.filesystem_error
    | FsAnswer.value created => FsAnswer.value (!created)

/-- The function `MongoLog::RotateLogFile`. -/
def MongoLog.RotateLogFile (self : MongoLog) (env : RotateEnv) : Option RotateResult := do
  let ev : List Event := if self.fOutfile.isSome then [Event.close] else []
  let self : MongoLog := { self with fOutfile := none }
  let today := env.today
  let ms := env.ms
  let filename ← MongoLog.LogFilePath self today
  let ev := ev ++ [Event.console ("Logging to " ++ quoted filename ++ "\n")]
  match env.directoryMissing with
  | FsAnswer.filesystem_error => return { exit := Exit.threw, self := self, events := ev }
  | FsAnswer.value true =>
    let ev := ev ++ [Event.console "Could not create output directories for logging!\n"]
    return { exit := Exit.returned (-1), self := self, events := ev }
  | FsAnswer.value false =>
    let ev := ev ++ [Event.openAppend filename env.open_ok]
    if !env.open_ok then
      let ev := ev ++ [Event.console "Could not rotate logfile!\n"]
      return { exit := Exit.returned (-1), self := self, events := ev }
    let self : MongoLog := { self with fOutfile := some filename }
    let stamp ← MongoLog.FormatTime today ms
    let ev := ev ++ [Event.fileWrite
      (stamp ++ " [INIT]: logfile initialized: commit " ++ REDAX_BUILD_COMMIT ++ "\n") true]
    let self : MongoLog := { self with fToday := MongoLog.Today today }
    if self.fDeleteAfterDays == 0 then
      return { exit := Exit.returned 0, self := self, events := ev }
    let last_week ← MongoLog.last_week self.fDeleteAfterDays today
    let p := MongoLog.virtualLogFileName self last_week
    match env.old_exists with
    | FsAnswer.filesystem_error => return { exit := Exit.threw, self := self, events := ev }
    | FsAnswer.value true =>
      let ev := ev ++ [Event.fileWrite (stamp ++ " [INIT]: Deleting " ++ p ++ "\n") true,
        Event.remove p]
      match env.remove with
      | FsAnswer.filesystem_error => return { exit := Exit.threw, self := self, events := ev }
      | FsAnswer.value _ => return { exit := Exit.returned 0, self := self, events := ev }
    | FsAnswer.value false =>
      let ev := ev ++
        [Event.fileWrite (stamp ++ " [INIT]: No older logfile to delete :(\n") true]
      return { exit := Exit.returned 0, self := self, events := ev }

/-! ## Entry -/

/-- What the outside world answers during one call of `Entry`. -/
structure EntryEnv where
  /-- The calendar part of `Now()` read at the start of `Entry`. -/
  today : Tm
  /-- The millisecond part of `Now()`. -/
  ms : Int
  /-- The answers used by `RotateLogFile` if this call rotates. -/
  rotate : RotateEnv
  /-- Whether `insert_one` returns normally; `false` when it throws a `std::exception`. -/
  insert_ok : Bool
deriving DecidableEq, Repr

/-- The outcome of `Entry`: how it was left, the logger afterwards, the actions, and (for
bookkeeping only) how `RotateLogFile` was left when it was called; `Entry` itself
discards the value `RotateLogFile` returns. -/
structure EntryResult where
  exit : Exit
  self : MongoLog
  events : List Event
  rotation : Option Exit
deriving DecidableEq, Repr

/-- The function `MongoLog::Entry`, applied to the message text after `vsnprintf`.  The call
of `RotateLogFile` in line 135 is outside the `try` block of lines 138 to 146, so a
`filesystem_error` thrown there leaves `Entry` at once; an exception of `insert_one`
is caught. -/
def MongoLog.Entry (self : MongoLog) (priority : Int) (message : String) (env : EntryEnv) :
    Option EntryResult := do
  let today := env.today
  let ms := env.ms
  let stamp ← MongoLog.FormatTime today ms
  let label ← vectorAt self.fPriorities (priority + 1)
  let msg := stamp ++ " [" ++ label ++ "]: " ++ message ++ "\n"
  let ev := [Event.console msg]
  let (self, ev, rotation) ←
    if MongoLog.Today today != self.fToday then
      (MongoLog.RotateLogFile self env.rotate).map fun r =>
        (r.self, ev ++ r.events, some r.exit)
    else some (self, ev, none)
  if rotation == some Exit.threw then
    return { exit := Exit.threw, self := self, events := ev, rotation := rotation }
  let ev := ev ++ [Event.fileWrite msg self.fOutfile.isSome]
  if priority ≥ self.fLogLevel then
    let d : Document :=
      { user := self.fHostname, message := message, priority := priority, runid := self.fRunId }
    if env.insert_ok then
      let ev := ev ++ [Event.insert_one d true]
      return { exit := Exit.returned 0, self := self, events := ev, rotation := rotation }
    else
      let ev := ev ++ [Event.insert_one d false,
        Event.console ("Failed to insert log message " ++ message ++ " (" ++
          to_string priority ++ ")\n")]
      return { exit := Exit.returned (-1), self := self, events := ev, rotation := rotation }
  return { exit := Exit.returned 0, self := self, events := ev, rotation := rotation }

/-- One call of `Entry` as the caller supplies it, with the world of that call. -/
structure EntryCall where
  priority : Int
  message : String
  env : EntryEnv
deriving DecidableEq, Repr

/-- A sequence of `Entry` calls on one logger, up to the first call an exception leaves:
the logger afterwards and the outcome of every call made, in order. -/
def MongoLog.runEntries (self : MongoLog) : List EntryCall → Option (MongoLog × List EntryResult)
  | [] => some (self, [])
  | c :: rest => do
    let r ← MongoLog.Entry self c.priority c.message c.env
    if r.exit == Exit.threw then
      return (r.self, [r])
    let (final, rs) ← MongoLog.runEntries r.self rest
    return (final, r :: rs)

/-- Whether an action is a call of `insert_one`. -/
def Event.isInsert : Event → Bool
  | Event.insert_one _ _ => true
  | _ => false

/-- The number of `insert_one` calls among the actions, successful or not. -/
def insertAttempts (events : List Event) : Nat :=
  (events.filter Event.isInsert).length

/-- Whether an action is an insertion into the stream `fOutfile`. -/
def Event.isFileWrite : Event → Bool
  | Event.fileWrite _ _ => true
  | _ => false

/-- The number of calls of `RotateLogFile` made by a sequence of `Entry` outcomes. -/
def rotationCount (rs : List EntryResult) : Nat :=
  (rs.filter fun r => r.rotation.isSome).length

/-! ## Reference notions the properties are stated against -/

/-- A calendar date as the specification writes it: calendar year, month counted from 1,
day of the month. -/
structure CalendarDate where
  year : Int
  month : Int
  day : Int
deriving DecidableEq, Repr

/-- The calendar date held by a `struct tm`. -/
def Tm.toCalendarDate (t : Tm) : CalendarDate :=
  { year := t.tm_year + 1900, month := t.tm_mon + 1, day := t.tm_mday }

/-- The month-length table of the specification of `ComputeExpiryDate`: the standard
twelve entries, February one longer when `year % 4 == 0`; `month` counts from 1. -/
def specMonthLength (year month : Int) : Int :=
  if month = 2 ∧ year % 4 = 0 then 29
  else ([31, 28, 31, 30, 31, 30, 31, 31, 30, 31, 30, 31].get? (month - 1).toNat).getD 0

/-- The operation `ComputeExpiryDate` written from the words of the specification (its
section 4.3), to be compared with `MongoLog.last_week`: none for a window of 0;
otherwise the window is subtracted from the day and, when the result is not
positive, the month is decremented (January wraps to December of the year before)
and the length of the resulting month is added, February being leap-adjusted by
the year of `today`. -/
def ComputeExpiryDate (today : CalendarDate) (windowDays : Int) : Option CalendarDate :=
  if windowDays = 0 then none
  else
    let day := today.day - windowDays
    if day ≤ 0 then
      let year := if today.month = 1 then today.year - 1 else today.year
      let month := if today.month = 1 then 12 else today.month - 1
      some { year := year, month := month, day := day + specMonthLength today.year month }
    else some { today with day := day }

/-- The leap years of the Gregorian calendar. -/
def isLeapYear (year : Int) : Bool :=
  (year % 4 = 0 ∧ year % 100 ≠ 0) ∨ year % 400 = 0

/-- The length of a month of the Gregorian calendar, `month` counted from 1. -/
def monthLength (year month : Int) : Int :=
  if month = 2 then (if isLeapYear year then 29 else 28)
  else if month = 4 ∨ month = 6 ∨ month = 9 ∨ month = 11 then 30
  else 31

/-- A date that exists in the Gregorian calendar. -/
def CalendarDate.valid (d : CalendarDate) : Prop :=
  1 ≤ d.month ∧ d.month ≤ 12 ∧ 1 ≤ d.day ∧ d.day ≤ monthLength d.year d.month

instance (d : CalendarDate) : Decidable d.valid := by
  unfold CalendarDate.valid; infer_instance

/-- The day before a date of the Gregorian calendar. -/
def CalendarDate.previous (d : CalendarDate) : CalendarDate :=
  if 1 < d.day then { d with day := d.day - 1 }
  else if 1 < d.month then
    { d with month := d.month - 1, day := monthLength d.year (d.month - 1) }
  else { year := d.year - 1, month := 12, day := 31 }

/-- The date `n` days before a date of the Gregorian calendar. -/
def CalendarDate.daysBefore (n : Nat) (d : CalendarDate) : CalendarDate :=
  Nat.iterate CalendarDate.previous n d

/-- The values `gmtime` and the millisecond counter of `Now()` can deliver for years 0 to
9999: the ranges C gives the fields of `struct tm` (a leap second included). -/
def clockReading (t : Tm) (ms : Int) : Prop :=
  (0 ≤ t.tm_year + 1900 ∧ t.tm_year + 1900 ≤ 9999) ∧ (0 ≤ t.tm_mon ∧ t.tm_mon ≤ 11) ∧
  (1 ≤ t.tm_mday ∧ t.tm_mday ≤ 31) ∧ (0 ≤ t.tm_hour ∧ t.tm_hour ≤ 23) ∧
  (0 ≤ t.tm_min ∧ t.tm_min ≤ 59) ∧ (0 ≤ t.tm_sec ∧ t.tm_sec ≤ 60) ∧ (0 ≤ ms ∧ ms ≤ 999)

instance (t : Tm) (ms : Int) : Decidable (clockReading t ms) := by
  unfold clockReading; infer_instance

/-- The world of an `Entry` call delivers clock readings, at the start of `Entry` and
inside `RotateLogFile`. -/
def EntryEnv.clockOk (env : EntryEnv) : Prop :=
  clockReading env.today env.ms ∧ clockReading env.rotate.today env.rotate.ms

instance (env : EntryEnv) : Decidable env.clockOk := by
  unfold EntryEnv.clockOk; infer_instance

/-- The parent directory is there for the rotation: it exists, or it does not and
`create_directories` creates it. -/
def RotateEnv.directoryAvailable (env : RotateEnv) : Prop :=
  env.pp_exists = FsAnswer.value true ∨
    (env.pp_exists = FsAnswer.value false ∧ env.create_directories = FsAnswer.value true)

instance (env : RotateEnv) : Decidable env.directoryAvailable := by
  unfold RotateEnv.directoryAvailable; infer_instance

/-- The parent directory cannot be created: it does not exist and `create_directories`
throws. -/
def RotateEnv.directoryCannotBeCreated (env : RotateEnv) : Prop :=
  env.pp_exists = FsAnswer.value false ∧ env.create_directories = FsAnswer.filesystem_error

instance (env : RotateEnv) : Decidable env.directoryCannotBeCreated := by
  unfold RotateEnv.directoryCannotBeCreated; infer_instance

/-- The file cannot be opened: the parent directory is there but the stream is not open
after `fOutfile.open`. -/
def RotateEnv.fileCannotBeOpened (env : RotateEnv) : Prop :=
  env.directoryAvailable ∧ env.open_ok = false

instance (env : RotateEnv) : Decidable env.fileCannotBeOpened := by
  unfold RotateEnv.fileCannotBeOpened; infer_instance

/-- The rotation opens its file: the parent directory is there and the file opens. -/
def RotateEnv.opens (env : RotateEnv) : Prop :=
  env.directoryAvailable ∧ env.open_ok = true

instance (env : RotateEnv) : Decidable env.opens := by
  unfold RotateEnv.opens; infer_instance

/-- The cleanup of the expired file does not throw: no expired file is found, or one is
found and `remove` returns. -/
def RotateEnv.cleanupReturns (env : RotateEnv) : Prop :=
  env.old_exists = FsAnswer.value false ∨
    (env.old_exists = FsAnswer.value true ∧ env.remove ≠ FsAnswer.filesystem_error)

instance (env : RotateEnv) : Decidable env.cleanupReturns := by
  unfold RotateEnv.cleanupReturns; infer_instance

/-- The rotation of this world succeeds: the parent directory exists or can be created,
the file opens, and the cleanup of the expired file does not throw. -/
def RotateEnv.succeeds (env : RotateEnv) : Prop :=
  env.opens ∧ env.cleanupReturns

instance (env : RotateEnv) : Decidable env.succeeds := by
  unfold RotateEnv.succeeds; infer_instance

/-- No filesystem call of this world throws. -/
def RotateEnv.quiet (env : RotateEnv) : Prop :=
  env.pp_exists ≠ FsAnswer.filesystem_error ∧
  env.create_directories ≠ FsAnswer.filesystem_error ∧
  env.old_exists ≠ FsAnswer.filesystem_error ∧ env.remove ≠ FsAnswer.filesystem_error

instance (env : RotateEnv) : Decidable env.quiet := by
  unfold RotateEnv.quiet; infer_instance

/-- The priority has an entry in the label table: `priority + 1` is a valid index. -/
def MongoLog.knownPriority (self : MongoLog) (priority : Int) : Prop :=
  0 ≤ priority + 1 ∧ priority + 1 < self.fPriorities.length

instance (self : MongoLog) (priority : Int) : Decidable (self.knownPriority priority) := by
  unfold MongoLog.knownPriority; infer_instance

/-- What lines 137 to 153 of `Entry` return and do, for a logger with the given threshold:
nothing below the threshold, otherwise the `insert_one` call and, when it throws,
the console line of the `catch` block with the return value -1. -/
def insertOutcome (self : MongoLog) (priority : Int) (message : String) (insert_ok : Bool) :
    Int × List Event :=
  let d : Document :=
    { user := self.fHostname, message := message, priority := priority, runid := self.fRunId }
  if priority ≥ self.fLogLevel then
    if insert_ok then (0, [Event.insert_one d true])
    else
      (-1, [Event.insert_one d false,
        Event.console ("Failed to insert log message " ++ message ++ " (" ++
          to_string priority ++ ")\n")])
  else (0, [])

/-- The number of positions at which a sequence of day numbers differs from the one
before it, the first being compared with `start`. -/
def dayChanges (start : Int) : List Int → Nat
  | [] => 0
  | d :: rest => (if d ≠ start then 1 else 0) + dayChanges d rest

/-- The decimal digits of `n` in exactly `w` positions, most significant first. -/
def fixedDigits : Nat → Nat → List Char
  | 0, _ => []
  | w + 1, n => fixedDigits w (n / 10) ++ [Nat.digitChar (n % 10)]

/-! ## Concrete loggers and worlds for the examples -/

/-- A sample label table (the theorems hold for every table): entries for the priorities
-1 to 4. -/
def samplePriorities : List String :=
  ["LOCAL", "DEBUG", "MESSAGE", "WARNING", "ERROR", "FATAL"]

/-- A flat logger as the constructor leaves it, keeping files for 5 days, with the
tracked day at 2024-02-28. -/
def sampleLogger : MongoLog :=
  (MongoLog.ctor LoggerClass.MongoLog samplePriorities 20240228 5 "/data/logs" "reader0").1

/-- The same logger with retention switched off (`DeleteAfterDays` 0). -/
def sampleLoggerKeepAll : MongoLog :=
  (MongoLog.ctor LoggerClass.MongoLog samplePriorities 20240228 0 "/data/logs" "reader0").1

/-- A hierarchical logger (`MongoLog_nT`) writing under the directory `root`. -/
def sampleLoggerByDay : MongoLog :=
  (MongoLog.ctor LoggerClass.MongoLog_nT samplePriorities 20240228 5 "root" "reader0").1

/-- The reading of the clock at noon of the given day. -/
def noonOf (year month day : Int) : Tm :=
  { tm_year := year - 1900, tm_mon := month - 1, tm_mday := day,
    tm_hour := 12, tm_min := 0, tm_sec := 0 }

/-- The filesystem answers of a rotation in which the directory exists, the file opens and
no expired file is found. -/
def rotationAt (year month day : Int) : RotateEnv :=
  { today := noonOf year month day, ms := 1, pp_exists := FsAnswer.value true,
    create_directories := FsAnswer.value false, open_ok := true,
    old_exists := FsAnswer.value false, remove := FsAnswer.value false }

/-- A world at noon of the given day in which the directory exists, the file opens and no
expired file is found. -/
def worldAt (year month day : Int) (insert_ok : Bool) : EntryEnv :=
  { today := noonOf year month day, ms := 0, rotate := rotationAt year month day,
    insert_ok := insert_ok }

/-- A world at noon of the given day in which the output directory does not exist and
cannot be created: `create_directories` throws. -/
def worldWithoutDirectory (year month day : Int) : EntryEnv :=
  { today := noonOf year month day
    ms := 0
    rotate := { rotationAt year month day with
      pp_exists := FsAnswer.value false, create_directories := FsAnswer.filesystem_error }
    insert_ok := true }

/-- The accumulator of `Nat.toDigitsCore` is only appended to. -/
theorem toDigitsCore_acc (fuel : Nat) : ∀ (n : Nat) (ds : List Char),
    Nat.toDigitsCore 10 fuel n ds = Nat.toDigitsCore 10 fuel n [] ++ ds := by
  induction fuel with
  | zero => intro n ds; simp [Nat.toDigitsCore]
  | succ f ih =>
    intro n ds
    simp only [Nat.toDigitsCore]
    by_cases h : n / 10 = 0
    · simp [h]
    · simp only [h, if_false]
      rw [ih (n / 10) (Nat.digitChar (n % 10) :: ds), ih (n / 10) [Nat.digitChar (n % 10)]]
      simp

/-- With fuel above the number, `Nat.toDigitsCore` does not depend on the fuel. -/
theorem toDigitsCore_fuel (f1 : Nat) : ∀ (f2 n : Nat), n < f1 → n < f2 →
    Nat.toDigitsCore 10 f1 n [] = Nat.toDigitsCore 10 f2 n [] := by
  induction f1 with
  | zero => intro f2 n h; omega
  | succ f ih =>
    intro f2 n h1 h2
    cases f2 with
    | zero => omega
    | succ g =>
      simp only [Nat.toDigitsCore]
      by_cases h : n / 10 = 0
      · simp [h]
      · simp only [h, if_false]
        rw [toDigitsCore_acc f, toDigitsCore_acc g, ih g (n / 10) (by omega) (by omega)]

/-- A number below 10 is rendered as its single digit. -/
theorem toDigits_small (n : Nat) (h : n < 10) : Nat.toDigits 10 n = [Nat.digitChar n] := by
  have h0 : n / 10 = 0 := by omega
  have h1 : n % 10 = n := by omega
  simp [Nat.toDigits, Nat.toDigitsCore, h0, h1]

/-- A number from 10 on is rendered as its tenth followed by its last digit. -/
theorem toDigits_step (n : Nat) (h : 10 ≤ n) :
    Nat.toDigits 10 n = Nat.toDigits 10 (n / 10) ++ [Nat.digitChar (n % 10)] := by
  have h0 : n / 10 ≠ 0 := by omega
  have hstep : Nat.toDigitsCore 10 (n + 1) n []
      = if n / 10 = 0 then [Nat.digitChar (n % 10)]
        else Nat.toDigitsCore 10 n (n / 10) [Nat.digitChar (n % 10)] := rfl
  show Nat.toDigitsCore 10 (n + 1) n []
    = Nat.toDigitsCore 10 (n / 10 + 1) (n / 10) [] ++ [Nat.digitChar (n % 10)]
  rw [hstep, if_neg h0, toDigitsCore_acc,
    toDigitsCore_fuel n (n / 10 + 1) (n / 10) (by omega) (by omega)]

/-- The rendering in `w` fixed digits has `w` characters. -/
theorem fixedDigits_length (w : Nat) : ∀ n : Nat, (fixedDigits w n).length = w := by
  induction w with
  | zero => intro n; rfl
  | succ w ih => intro n; simp [fixedDigits, ih]

/-- Zero in `w` fixed digits is `w` zeros. -/
theorem fixedDigits_zero (w : Nat) : fixedDigits w 0 = List.replicate w (Char.ofNat 48) := by
  induction w with
  | zero => rfl
  | succ w ih =>
    simp only [fixedDigits, Nat.zero_div, Nat.zero_mod, ih]
    rw [List.replicate_succ']
    rfl

/-- Padding the digits of `n` with zeros to `w` places gives its `w` fixed digits. -/
theorem zeroFill_toDigits (w : Nat) : ∀ n : Nat, n < 10 ^ (w + 1) →
    List.replicate (w + 1 - (Nat.toDigits 10 n).length) (Char.ofNat 48) ++ Nat.toDigits 10 n
      = fixedDigits (w + 1) n := by
  induction w with
  | zero =>
    intro n h
    have h10 : n < 10 := by simpa using h
    have h1 : n / 10 = 0 := by omega
    have h2 : n % 10 = n := by omega
    simp [toDigits_small n h10, fixedDigits, h2]
  | succ w ih =>
    intro n h
    by_cases h10 : n < 10
    · have h1 : n / 10 = 0 := by omega
      have h2 : n % 10 = n := by omega
      rw [toDigits_small n h10]
      show List.replicate (w + 1 + 1 - 1) (Char.ofNat 48) ++ [Nat.digitChar n]
        = fixedDigits (w + 1) (n / 10) ++ [Nat.digitChar (n % 10)]
      rw [h1, h2, fixedDigits_zero]
      rfl
    · have hlt : n / 10 < 10 ^ (w + 1) := by
        rw [Nat.div_lt_iff_lt_mul (by decide)]
        rwa [pow_succ] at h
      rw [toDigits_step n (by omega)]
      show _ = fixedDigits (w + 1) (n / 10) ++ [Nat.digitChar (n % 10)]
      rw [← ih (n / 10) hlt, List.length_append, List.length_singleton, Nat.add_sub_add_right,
        List.append_assoc]

/-- A number with exactly `w + 1` digits is rendered as its `w + 1` fixed digits. -/
theorem toDigits_eq_fixedDigits (w : Nat) : ∀ n : Nat, 10 ^ w ≤ n → n < 10 ^ (w + 1) →
    Nat.toDigits 10 n = fixedDigits (w + 1) n := by
  induction w with
  | zero =>
    intro n _ h
    have h10 : n < 10 := by simpa using h
    have h2 : n % 10 = n := by omega
    simp [toDigits_small n h10, fixedDigits, h2]
  | succ w ih =>
    intro n hlo hhi
    have h10 : 10 ≤ n := by
      have : 10 ^ 1 ≤ 10 ^ (w + 1) := Nat.pow_le_pow_right (by decide) (by omega)
      omega
    have hlt : n / 10 < 10 ^ (w + 1) := by
      rw [Nat.div_lt_iff_lt_mul (by decide)]
      rwa [pow_succ] at hhi
    have hge : 10 ^ w ≤ n / 10 := by
      rw [Nat.le_div_iff_mul_le (by decide)]
      rwa [pow_succ] at hlo
    rw [toDigits_step n h10, ih (n / 10) hge hlt]
    rfl

/-- The fixed digits of `x * 10 ^ b + r` are those of `x` followed by those of `r`. -/
theorem fixedDigits_concat (a b : Nat) : ∀ (x r : Nat), r < 10 ^ b →
    fixedDigits (a + b) (x * 10 ^ b + r) = fixedDigits a x ++ fixedDigits b r := by
  induction b with
  | zero =>
    intro x r h
    have : r = 0 := by simpa using h
    subst this
    simp [fixedDigits]
  | succ b ih =>
    intro x r h
    have hr : r / 10 < 10 ^ b := by
      rw [Nat.div_lt_iff_lt_mul (by decide)]
      rwa [pow_succ] at h
    have hpow : x * 10 ^ (b + 1) = 10 * (x * 10 ^ b) := by ring
    have hdiv : (x * 10 ^ (b + 1) + r) / 10 = x * 10 ^ b + r / 10 := by
      rw [hpow]; omega
    have hmod : (x * 10 ^ (b + 1) + r) % 10 = r % 10 := by
      rw [hpow]; omega
    show fixedDigits (a + b) ((x * 10 ^ (b + 1) + r) / 10)
        ++ [Nat.digitChar ((x * 10 ^ (b + 1) + r) % 10)]
      = fixedDigits a x ++ (fixedDigits b (r / 10) ++ [Nat.digitChar (r % 10)])
    rw [hdiv, hmod, ih x (r / 10) hr, List.append_assoc]

/-- Appending strings appends their character lists. -/
theorem mk_append_mk (a b : List Char) : String.mk a ++ String.mk b = String.mk (a ++ b) := rfl

/-- The decimal rendering `Nat.repr` is the string of `Nat.toDigits 10`. -/
theorem repr_eq_mk (n : Nat) : Nat.repr n = String.mk (Nat.toDigits 10 n) := rfl

/-- The conversion `%0wi` of a value below `10 ^ w` writes exactly its `w` fixed digits. -/
theorem fmt0_natCast (w n : Nat) (h : n < 10 ^ (w + 1)) :
    fmt0 (w + 1) (n : Int) = String.mk (fixedDigits (w + 1) n) := by
  have hneg : ¬ ((n : Int) < 0) := by omega
  simp only [fmt0, hneg, if_false, zeroFill, Int.toNat_ofNat, repr_eq_mk, mk_append_mk,
    String.length]
  rw [zeroFill_toDigits w n h]

/-- The conversion `%0wi` of a value in `[0, 10 ^ w)` writes exactly `w` characters. -/
theorem fmt0_length (w : Nat) (v : Int) (h0 : 0 ≤ v) (h1 : v < 10 ^ (w + 1)) :
    (fmt0 (w + 1) v).length = w + 1 := by
  obtain ⟨n, rfl⟩ := Int.eq_ofNat_of_zero_le h0
  have hn : n < 10 ^ (w + 1) := by exact_mod_cast h1
  rw [fmt0_natCast w n hn]
  exact fixedDigits_length (w + 1) n

/-- The function `to_string` of a number with exactly `w + 1` digits. -/
theorem to_string_natCast (w n : Nat) (hlo : 10 ^ w ≤ n) (hhi : n < 10 ^ (w + 1)) :
    to_string (n : Int) = String.mk (fixedDigits (w + 1) n) := by
  have hneg : ¬ ((n : Int) < 0) := by omega
  simp only [to_string, hneg, if_false, Int.toNat_ofNat, repr_eq_mk]
  rw [toDigits_eq_fixedDigits w n hlo hhi]

/-- Within the ranges of a clock reading the time stamp has exactly 23 characters, so
`FormatTime` stays inside its buffer. -/
theorem FormatTime_defined (t : Tm) (ms : Int) (h : clockReading t ms) :
    ∃ stamp, MongoLog.FormatTime t ms = some stamp ∧ stamp.length = 23 := by
  obtain ⟨⟨hy0, hy1⟩, ⟨hm0, hm1⟩, ⟨hd0, hd1⟩, ⟨hh0, hh1⟩, ⟨hn0, hn1⟩, ⟨hs0, hs1⟩, hms0, hms1⟩ := h
  have e1 := fmt0_length 3 (t.tm_year + 1900) hy0 (by norm_num; omega)
  have e2 := fmt0_length 1 (t.tm_mon + 1) (by omega) (by norm_num; omega)
  have e3 := fmt0_length 1 t.tm_mday (by omega) (by norm_num; omega)
  have e4 := fmt0_length 1 t.tm_hour hh0 (by norm_num; omega)
  have e5 := fmt0_length 1 t.tm_min hn0 (by norm_num; omega)
  have e6 := fmt0_length 1 t.tm_sec hs0 (by norm_num; omega)
  have e7 := fmt0_length 2 ms hms0 (by norm_num; omega)
  have hlen : (fmt0 4 (t.tm_year + 1900) ++ "-" ++ fmt0 2 (t.tm_mon + 1) ++ "-" ++
      fmt0 2 t.tm_mday ++ " " ++ fmt0 2 t.tm_hour ++ ":" ++ fmt0 2 t.tm_min ++
      ":" ++ fmt0 2 t.tm_sec ++ "." ++ fmt0 3 ms).length = 23 := by
    simp only [String.length_append, e1, e2, e3, e4, e5, e6, e7]
    rfl
  refine ⟨_, ?_, hlen⟩
  simp only [MongoLog.FormatTime, sprintfInto, hlen]
  rfl


/-- For every clock reading the day number `YYYYMMDD` computed by `Today` is far inside
the range of a 32-bit `int`. -/
theorem Today_fits_int32 (t : Tm) (ms : Int) (h : clockReading t ms) :
    0 ≤ MongoLog.Today t ∧ MongoLog.Today t < 2 ^ 31 := by
  obtain ⟨⟨hy0, hy1⟩, ⟨hm0, hm1⟩, ⟨hd0, hd1⟩, _⟩ := h
  unfold MongoLog.Today
  constructor <;> norm_num <;> omega

/-! ## Paths and rotation -/

/-- For a month and a day of two digits `MongoLog_nT::OutputDirectory` stays inside
`temp[6]` and returns `fOutputDir / year / MM.DD`. -/
theorem nT_OutputDirectory_eq (self : MongoLog) (t : Tm)
    (hm : 0 ≤ t.tm_mon ∧ t.tm_mon ≤ 11) (hd : 1 ≤ t.tm_mday ∧ t.tm_mday ≤ 31) :
    MongoLog_nT.OutputDirectory self t
      = some (pathAppend (pathAppend self.fOutputDir (to_string (t.tm_year + 1900)))
          (fmt0 2 (t.tm_mon + 1) ++ "." ++ fmt0 2 t.tm_mday)) := by
  have e2 := fmt0_length 1 (t.tm_mon + 1) (by omega) (by norm_num; omega)
  have e3 := fmt0_length 1 t.tm_mday (by omega) (by norm_num; omega)
  have hlen : (fmt0 2 (t.tm_mon + 1) ++ "." ++ fmt0 2 t.tm_mday).length = 5 := by
    simp only [String.length_append, e2, e3]
    rfl
  simp only [MongoLog_nT.OutputDirectory, sprintfInto, hlen]
  rfl

/-- For every clock reading the path of the log file is defined, in both classes. -/
theorem LogFilePath_defined (self : MongoLog) (t : Tm) (ms : Int) (h : clockReading t ms) :
    ∃ filename, MongoLog.LogFilePath self t = some filename := by
  obtain ⟨_, hm, hd, _⟩ := h
  cases hc : self.dynamicType with
  | MongoLog => simp [MongoLog.LogFilePath, MongoLog.virtualOutputDirectory, hc]
  | MongoLog_nT =>
    simp [MongoLog.LogFilePath, MongoLog.virtualOutputDirectory, hc,
      nT_OutputDirectory_eq self t hm hd]

/-- The table of the source when its leap test holds. -/
theorem days_per_month_leap (t : Tm) (h : Int.tmod t.tm_year 4 = 0) :
    MongoLog.days_per_month t = [31, 29, 31, 30, 31, 30, 31, 31, 30, 31, 30, 31] := by
  simp [MongoLog.days_per_month, h]

/-- The table of the source when its leap test fails. -/
theorem days_per_month_common (t : Tm) (h : ¬ Int.tmod t.tm_year 4 = 0) :
    MongoLog.days_per_month t = [31, 28, 31, 30, 31, 30, 31, 31, 30, 31, 30, 31] := by
  simp [MongoLog.days_per_month, h]

/-- The month table has an entry at every index from 0 to 11. -/
theorem vectorAt_days_per_month (t : Tm) (i : Int) (h0 : 0 ≤ i) (h1 : i ≤ 11) :
    ∃ len, vectorAt (MongoLog.days_per_month t) i = some len := by
  obtain ⟨n, rfl⟩ := Int.eq_ofNat_of_zero_le h0
  have hn : n ≤ 11 := by omega
  by_cases hleap : Int.tmod t.tm_year 4 = 0
  · rw [days_per_month_leap t hleap]
    interval_cases n <;> exact ⟨_, rfl⟩
  · rw [days_per_month_common t hleap]
    interval_cases n <;> exact ⟨_, rfl⟩

/-- For a month in range the expiry date is computed inside the month table. -/
theorem last_week_defined (w : Int) (t : Tm) (hm : 0 ≤ t.tm_mon ∧ t.tm_mon ≤ 11) :
    ∃ lw, MongoLog.last_week w t = some lw := by
  obtain ⟨h0, h1⟩ := hm
  simp only [MongoLog.last_week]
  split
  · by_cases hneg : t.tm_mon - 1 < 0
    · obtain ⟨len, hlen⟩ := vectorAt_days_per_month t 11 (by omega) (by omega)
      simp [hneg, hlen]
    · obtain ⟨len, hlen⟩ := vectorAt_days_per_month t (t.tm_mon - 1) (by omega) (by omega)
      simp [hneg, hlen]
  · exact ⟨_, rfl⟩

/-- Counting `insert_one` calls is additive over concatenation. -/
theorem insertAttempts_append (a b : List Event) :
    insertAttempts (a ++ b) = insertAttempts a + insertAttempts b := by
  simp [insertAttempts, List.filter_append]

/-- Counting `insert_one` calls, one action at a time. -/
theorem insertAttempts_cons (e : Event) (l : List Event) :
    insertAttempts (e :: l) = (if e.isInsert then 1 else 0) + insertAttempts l := by
  cases h : e.isInsert <;> simp [insertAttempts, List.filter_cons, h, Nat.add_comm]

/-- No action, no `insert_one` call. -/
theorem insertAttempts_nil : insertAttempts [] = 0 := rfl

/-! ## Retention arithmetic -/

/-- The leap test of the source, on years counted from 1900 and with the truncating `%` of
C++, agrees with `year % 4 == 0` on the calendar year. -/
theorem leap_test_calendar_year (tm_year : Int) :
    Int.tmod tm_year 4 = 0 ↔ (tm_year + 1900) % 4 = 0 := by
  rw [← Int.dvd_iff_tmod_eq_zero]
  omega

/-- The expiry date of the source in closed form, for a month in range. -/
theorem last_week_eq (w : Int) (t : Tm) (hm : 0 ≤ t.tm_mon ∧ t.tm_mon ≤ 11) :
    MongoLog.last_week w t = some
      (if t.tm_mday - w ≤ 0 then
        { t with
          tm_year := if t.tm_mon = 0 then t.tm_year - 1 else t.tm_year
          tm_mon := if t.tm_mon = 0 then 11 else t.tm_mon - 1
          tm_mday := t.tm_mday - w +
            specMonthLength (t.tm_year + 1900) (if t.tm_mon = 0 then 12 else t.tm_mon) }
      else { t with tm_mday := t.tm_mday - w }) := by
  obtain ⟨y, m, d, hh, mm, ss⟩ := t
  obtain ⟨h0, h1⟩ := hm
  simp only at h0 h1
  by_cases hday : d - w ≤ 0
  · by_cases hleap : Int.tmod y 4 = 0
    · have hl := (leap_test_calendar_year y).mp hleap
      have hdpm : ∀ m' : Int, MongoLog.days_per_month ⟨y, m', d, hh, mm, ss⟩
          = [31, 29, 31, 30, 31, 30, 31, 31, 30, 31, 30, 31] :=
        fun m' => days_per_month_leap _ hleap
      interval_cases m <;>
        simp [MongoLog.last_week, hday, hdpm, vectorAt, specMonthLength, hl]
    · have hl : ¬ (y + 1900) % 4 = 0 := fun h => hleap ((leap_test_calendar_year y).mpr h)
      have hdpm : ∀ m' : Int, MongoLog.days_per_month ⟨y, m', d, hh, mm, ss⟩
          = [31, 28, 31, 30, 31, 30, 31, 31, 30, 31, 30, 31] :=
        fun m' => days_per_month_common _ hleap
      interval_cases m <;>
        simp [MongoLog.last_week, hday, hdpm, vectorAt, specMonthLength, hl]
  · simp [MongoLog.last_week, hday]

/-- C5: the expiry date computed in `RotateLogFile` is the `ComputeExpiryDate` of the
specification.  For every `struct tm` with a month in range and every window > 0
the source computes a date `lw`, and `lw` read as a calendar date is what
`ComputeExpiryDate` returns for today read as a calendar date.  If `day - window > 0`
it is `(year, month, day - window)`; otherwise the month is decremented (January
becomes December of `year - 1`) and the day is `day - window + L`, with `L` the
length of the resulting month in the table with February at 29 exactly when
today's calendar year `% 4 == 0`.  Last part: `((2024, 3, 2), 5)` gives
`(2024, 2, 26)`, in the source and in the specification. -/
theorem C5_expiry_date_is_ComputeExpiryDate :
    (∀ (today : Tm) (window : Int), 0 ≤ today.tm_mon ∧ today.tm_mon ≤ 11 → 0 < window →
      ∃ lw, MongoLog.last_week window today = some lw ∧
        ComputeExpiryDate today.toCalendarDate window = some lw.toCalendarDate ∧
        (0 < today.toCalendarDate.day - window →
          lw.toCalendarDate =
            { today.toCalendarDate with day := today.toCalendarDate.day - window }) ∧
        (today.toCalendarDate.day - window ≤ 0 →
          lw.toCalendarDate.year = (if today.toCalendarDate.month = 1
            then today.toCalendarDate.year - 1 else today.toCalendarDate.year) ∧
          lw.toCalendarDate.month = (if today.toCalendarDate.month = 1
            then 12 else today.toCalendarDate.month - 1) ∧
          lw.toCalendarDate.day = today.toCalendarDate.day - window +
            specMonthLength today.toCalendarDate.year lw.toCalendarDate.month)) ∧
    (∀ year : Int,
      [1, 2, 3, 4, 5, 6, 7, 8, 9, 10, 11, 12].map (specMonthLength year)
        = [31, if year % 4 = 0 then 29 else 28, 31, 30, 31, 30, 31, 31, 30, 31, 30, 31]) ∧
    (MongoLog.last_week 5 (noonOf 2024 3 2) = some (noonOf 2024 2 26) ∧
      ComputeExpiryDate { year := 2024, month := 3, day := 2 } 5
        = some { year := 2024, month := 2, day := 26 }) := by
  refine ⟨?_, ?_, ?_, ?_⟩
  · intro today window hm hw
    refine ⟨_, last_week_eq window today hm, ?_, ?_, ?_⟩
    · have hw0 : window ≠ 0 := by omega
      by_cases hday : today.tm_mday - window ≤ 0
      · by_cases hjan : today.tm_mon = 0
        · simp [ComputeExpiryDate, Tm.toCalendarDate, hw0, hday, hjan]
          omega
        · have hjan1 : ¬ today.tm_mon + 1 = 1 := by omega
          simp [ComputeExpiryDate, Tm.toCalendarDate, hw0, hday, hjan, hjan1]
      · simp [ComputeExpiryDate, Tm.toCalendarDate, hw0, hday]
    · intro hpos
      have hday : ¬ today.tm_mday - window ≤ 0 := by
        simp only [Tm.toCalendarDate] at hpos
        omega
      simp [Tm.toCalendarDate, hday]
    · intro hneg
      have hday : today.tm_mday - window ≤ 0 := hneg
      by_cases hjan : today.tm_mon = 0
      · simp [Tm.toCalendarDate, hday, hjan]
        omega
      · have hjan1 : ¬ today.tm_mon + 1 = 1 := by omega
        simp [Tm.toCalendarDate, hday, hjan, hjan1]
  · intro year
    by_cases h : year % 4 = 0 <;> simp [specMonthLength, h]
  · decide
  · decide

/-- C5, at a concrete date: 2024-03-02 with a window of 5 days. -/
theorem C5_expiry_date_is_ComputeExpiryDate_witness :
    (0 ≤ (noonOf 2024 3 2).tm_mon ∧ (noonOf 2024 3 2).tm_mon ≤ 11) ∧ (0 : Int) < 5 ∧
    ∃ lw, MongoLog.last_week 5 (noonOf 2024 3 2) = some lw ∧
      ComputeExpiryDate (noonOf 2024 3 2).toCalendarDate 5 = some lw.toCalendarDate ∧
      (0 < (noonOf 2024 3 2).toCalendarDate.day - 5 →
        lw.toCalendarDate = { (noonOf 2024 3 2).toCalendarDate with
          day := (noonOf 2024 3 2).toCalendarDate.day - 5 }) ∧
      ((noonOf 2024 3 2).toCalendarDate.day - 5 ≤ 0 →
        lw.toCalendarDate.year = (if (noonOf 2024 3 2).toCalendarDate.month = 1
          then (noonOf 2024 3 2).toCalendarDate.year - 1
          else (noonOf 2024 3 2).toCalendarDate.year) ∧
        lw.toCalendarDate.month = (if (noonOf 2024 3 2).toCalendarDate.month = 1
          then 12 else (noonOf 2024 3 2).toCalendarDate.month - 1) ∧
        lw.toCalendarDate.day = (noonOf 2024 3 2).toCalendarDate.day - 5 +
          specMonthLength (noonOf 2024 3 2).toCalendarDate.year lw.toCalendarDate.month) :=
  ⟨by decide, by decide,
    C5_expiry_date_is_ComputeExpiryDate.1 (noonOf 2024 3 2) 5 (by decide) (by decide)⟩

/-! ## The expiry date as a date of the Gregorian calendar -/

/-- Going back `k + 1` days is going back `k` days from the day before. -/
theorem daysBefore_succ (k : Nat) (d : CalendarDate) :
    CalendarDate.daysBefore (k + 1) d = CalendarDate.daysBefore k d.previous :=
  Function.iterate_succ_apply _ k d

/-- Going back `a + b` days is going back `b` days and then `a` days. -/
theorem daysBefore_add (a b : Nat) (d : CalendarDate) :
    CalendarDate.daysBefore (a + b) d = CalendarDate.daysBefore a (CalendarDate.daysBefore b d) :=
  Function.iterate_add_apply _ a b d

/-- Going back fewer days than the day of the month stays inside the month. -/
theorem daysBefore_within_month (k : Nat) : ∀ (d : CalendarDate), (k : Int) < d.day →
    CalendarDate.daysBefore k d = { d with day := d.day - k } := by
  induction k with
  | zero => intro d _; simp [CalendarDate.daysBefore]
  | succ k ih =>
    intro d h
    have h1 : 1 < d.day := by push_cast at h; omega
    have hprev : d.previous = { d with day := d.day - 1 } := by
      simp [CalendarDate.previous, h1]
    rw [daysBefore_succ, hprev, ih _ (by push_cast at h; simp only; omega)]
    simp only [CalendarDate.mk.injEq, true_and]
    push_cast
    omega

/-- Going back as many days as the day of the month reaches the last day of the month
before. -/
theorem daysBefore_day (d : CalendarDate) (n : Nat) (hn : (n : Int) = d.day) (hpos : 1 ≤ d.day) :
    CalendarDate.daysBefore n d = ({ d with day := 1 } : CalendarDate).previous := by
  obtain ⟨k, rfl⟩ : ∃ k, n = k + 1 := ⟨n - 1, by omega⟩
  rw [Nat.add_comm, daysBefore_add, daysBefore_within_month k d (by omega)]
  have : d.day - (k : Int) = 1 := by push_cast at hn; omega
  rw [this]
  rfl

/-- Between 1901 and 2099 the table of the source has the Gregorian month lengths. -/
theorem specMonthLength_eq_monthLength (year month : Int) (hy : 1901 ≤ year ∧ year ≤ 2099)
    (hm : 1 ≤ month ∧ month ≤ 12) : specMonthLength year month = monthLength year month := by
  obtain ⟨h0, h1⟩ := hm
  have hleap : isLeapYear year = true ↔ year % 4 = 0 := by
    simp only [isLeapYear, decide_eq_true_eq]
    omega
  by_cases h4 : year % 4 = 0
  · have hl : isLeapYear year = true := hleap.mpr h4
    interval_cases month <;> simp [specMonthLength, monthLength, h4, hl]
  · have hl : isLeapYear year = false := by
      cases hx : isLeapYear year
      · rfl
      · exact absurd (hleap.mp hx) h4
    interval_cases month <;> simp [specMonthLength, monthLength, h4, hl]

/-- Every month of the Gregorian calendar has 28 to 31 days. -/
theorem monthLength_bounds (year month : Int) :
    28 ≤ monthLength year month ∧ monthLength year month ≤ 31 := by
  unfold monthLength
  split
  · split <;> omega
  · split <;> omega

/-- The expiry date of the source read as a calendar date, by cases. -/
theorem last_week_toCalendarDate (w : Int) (t : Tm) (hm : 0 ≤ t.tm_mon ∧ t.tm_mon ≤ 11) :
    ∃ lw, MongoLog.last_week w t = some lw ∧
      lw.toCalendarDate =
        (if t.tm_mday - w ≤ 0 then
          (if t.tm_mon = 0 then
            { year := t.tm_year + 1900 - 1, month := 12, day := t.tm_mday - w + 31 }
          else
            { year := t.tm_year + 1900, month := t.tm_mon,
              day := t.tm_mday - w + specMonthLength (t.tm_year + 1900) t.tm_mon })
        else { year := t.tm_year + 1900, month := t.tm_mon + 1, day := t.tm_mday - w }) := by
  refine ⟨_, last_week_eq w t hm, ?_⟩
  by_cases hday : t.tm_mday - w ≤ 0
  · by_cases hjan : t.tm_mon = 0
    · simp [Tm.toCalendarDate, hday, hjan, specMonthLength]
      omega
    · simp [Tm.toCalendarDate, hday, hjan]
  · simp [Tm.toCalendarDate, hday]

/-- C10: for every valid Gregorian date with a year from 1901 to 2099 and every retention
window `w` from 1 to 28, the expiry date computed in `RotateLogFile` is a valid
calendar date and is exactly the date `w` days before today: neither the leap test
on `tm_year` (counted from 1900) nor the single month borrow is off by one there. -/
theorem C10_expiry_date_is_w_days_before_today (today : Tm) (w : Nat)
    (hyear : 1901 ≤ today.toCalendarDate.year ∧ today.toCalendarDate.year ≤ 2099)
    (hvalid : today.toCalendarDate.valid) (hw : 1 ≤ w ∧ w ≤ 28) :
    ∃ lw, MongoLog.last_week (w : Int) today = some lw ∧ lw.toCalendarDate.valid ∧
      lw.toCalendarDate = CalendarDate.daysBefore w today.toCalendarDate := by
  obtain ⟨hy0, hy1⟩ := hyear
  obtain ⟨hm0, hm1, hd0, hd1⟩ := hvalid
  obtain ⟨hw0, hw1⟩ := hw
  obtain ⟨lw, hlw, hcal⟩ := last_week_toCalendarDate w today
    ⟨by simp only [Tm.toCalendarDate] at hm0; omega, by simp only [Tm.toCalendarDate] at hm1; omega⟩
  refine ⟨lw, hlw, ?_⟩
  rw [hcal]
  obtain ⟨y, m, d, hh, mm, ss⟩ := today
  simp only [Tm.toCalendarDate] at hy0 hy1 hm0 hm1 hd0 hd1 ⊢
  have hb := monthLength_bounds (y + 1900) (m + 1)
  by_cases hday : d - (w : Int) ≤ 0
  · -- the borrow: back to the first of the month, one more day, then the rest
    rw [if_pos hday]
    obtain ⟨dn, hdn⟩ := Int.eq_ofNat_of_zero_le (show (0 : Int) ≤ d by omega)
    have hsplit : w = (w - dn) + dn := by omega
    have hback : CalendarDate.daysBefore w ⟨y + 1900, m + 1, d⟩
        = CalendarDate.daysBefore (w - dn)
            (({ year := y + 1900, month := m + 1, day := 1 } : CalendarDate).previous) := by
      conv_lhs => rw [hsplit]
      rw [daysBefore_add, daysBefore_day ⟨y + 1900, m + 1, d⟩ dn (by simp only; omega)
        (by simp only; omega)]
    rw [hback]
    by_cases hjan : m = 0
    · rw [if_pos hjan]
      have hP : ({ year := y + 1900, month := m + 1, day := 1 } : CalendarDate).previous
          = ⟨y + 1900 - 1, 12, 31⟩ := by
        simp [CalendarDate.previous, hjan]
      rw [hP, daysBefore_within_month (w - dn) _ (by simp only; omega)]
      refine ⟨⟨by simp only; omega, by simp only; omega, by simp only; omega, ?_⟩, ?_⟩
      · simp only [monthLength]
        norm_num
        omega
      · simp only [CalendarDate.mk.injEq, true_and]
        push_cast [Nat.cast_sub (show dn ≤ w by omega)]
        omega
    · rw [if_neg hjan]
      have hP : ({ year := y + 1900, month := m + 1, day := 1 } : CalendarDate).previous
          = ⟨y + 1900, m, monthLength (y + 1900) m⟩ := by
        have h1 : (1 : Int) < m + 1 := by omega
        simp [CalendarDate.previous, h1]
      have hlen : specMonthLength (y + 1900) m = monthLength (y + 1900) m :=
        specMonthLength_eq_monthLength (y + 1900) m ⟨hy0, hy1⟩ ⟨by omega, by omega⟩
      have hb2 := monthLength_bounds (y + 1900) m
      rw [hP, daysBefore_within_month (w - dn) _ (by simp only; omega), hlen]
      refine ⟨⟨by simp only; omega, by simp only; omega, by simp only; omega, ?_⟩, ?_⟩
      · simp only
        omega
      · simp only [CalendarDate.mk.injEq, true_and]
        push_cast [Nat.cast_sub (show dn ≤ w by omega)]
        omega
  · rw [if_neg hday, daysBefore_within_month w _ (by simp only; omega)]
    exact ⟨⟨hm0, hm1, by simp only; omega, by simp only; omega⟩, rfl⟩

/-- C10, at a concrete date: five days before 2024-03-02, across the leap day. -/
theorem C10_expiry_date_is_w_days_before_today_witness :
    (1901 ≤ (noonOf 2024 3 2).toCalendarDate.year ∧
      (noonOf 2024 3 2).toCalendarDate.year ≤ 2099) ∧
    (noonOf 2024 3 2).toCalendarDate.valid ∧ (1 ≤ 5 ∧ 5 ≤ 28) ∧
    ∃ lw, MongoLog.last_week ((5 : Nat) : Int) (noonOf 2024 3 2) = some lw ∧
      lw.toCalendarDate.valid ∧
      lw.toCalendarDate = CalendarDate.daysBefore 5 (noonOf 2024 3 2).toCalendarDate :=
  ⟨by decide, by decide, by decide,
    C10_expiry_date_is_w_days_before_today (noonOf 2024 3 2) 5 (by decide) (by decide)
      (by decide)⟩

/-! ## File names and directories -/

/-- The day number of a date with a four-digit year is written as the four digits of the
year, the two of the month and the two of the day. -/
theorem to_string_Today_digits (Y M D : Nat) (hY : 1000 ≤ Y ∧ Y ≤ 9999) (hM : M < 100)
    (hD : D < 100) :
    to_string (((Y * 10000 + M * 100 + D : Nat)) : Int)
      = String.mk (fixedDigits 4 Y ++ fixedDigits 2 M ++ fixedDigits 2 D) := by
  rw [to_string_natCast 7 _ (by norm_num; omega) (by norm_num; omega)]
  have h1 : Y * 10000 + M * 100 + D = Y * 10 ^ 4 + (M * 10 ^ 2 + D) := by norm_num; omega
  rw [h1, fixedDigits_concat 4 4 Y (M * 10 ^ 2 + D) (by norm_num; omega),
    fixedDigits_concat 2 2 M D (by norm_num; omega), List.append_assoc]

/-- The name of the flat log file: `YYYYMMDD`, then `_`, the host and `.log`. -/
theorem LogFileName_eq (self : MongoLog) (t : Tm)
    (hy : 1000 ≤ t.tm_year + 1900 ∧ t.tm_year + 1900 ≤ 9999)
    (hm : 0 ≤ t.tm_mon ∧ t.tm_mon ≤ 11) (hd : 1 ≤ t.tm_mday ∧ t.tm_mday ≤ 31) :
    MongoLog.LogFileName self t
      = fmt0 4 (t.tm_year + 1900) ++ fmt0 2 (t.tm_mon + 1) ++ fmt0 2 t.tm_mday ++ "_" ++
          self.fHostname ++ ".log" := by
  obtain ⟨Y, hY⟩ := Int.eq_ofNat_of_zero_le (show 0 ≤ t.tm_year + 1900 by omega)
  obtain ⟨M, hM⟩ := Int.eq_ofNat_of_zero_le (show 0 ≤ t.tm_mon + 1 by omega)
  obtain ⟨D, hD⟩ := Int.eq_ofNat_of_zero_le (show 0 ≤ t.tm_mday by omega)
  have hT : MongoLog.Today t = ((Y * 10000 + M * 100 + D : Nat) : Int) := by
    simp only [MongoLog.Today, hY, hM, hD]
    push_cast
    rfl
  simp only [MongoLog.LogFileName, hT, hY, hM, hD]
  rw [to_string_Today_digits Y M D ⟨by omega, by omega⟩ (by omega) (by omega),
    fmt0_natCast 3 Y (by norm_num; omega), fmt0_natCast 1 M (by norm_num; omega),
    fmt0_natCast 1 D (by norm_num; omega)]
  simp only [mk_append_mk]

/-- Two fixed digits are the tens digit and the units digit. -/
theorem fmt0_two_digits (v : Int) (h0 : 0 ≤ v) (h1 : v ≤ 99) :
    fmt0 2 v = String.mk [Nat.digitChar (v.toNat / 10), Nat.digitChar (v.toNat % 10)] := by
  obtain ⟨n, rfl⟩ := Int.eq_ofNat_of_zero_le h0
  have hn : n < 100 := by omega
  rw [fmt0_natCast 1 n (by norm_num; omega)]
  have h10 : n / 10 % 10 = n / 10 := by omega
  simp [fixedDigits, h10]

/-- C7: the hierarchical path strategy of `MongoLog_nT`.  For every date with month 1..12
and day 1..31, `OutputDirectory` stays inside its buffer and returns
`root / <decimal year> / "MM.DD"` (with `/` the path concatenation), where `MM` and
`DD` are the month and the day written with exactly two digits, the tens digit being
0 below 10.  `LogFileName` is `host + ".log"` for every date, so the log file path
is that directory followed by `host.log`.  For (2025, 7, 4) under `root` the
directory is `root/2025/07.04`. -/
theorem C7_hierarchical_directory_and_name :
    (∀ (self : MongoLog) (date : Tm),
      (1 ≤ date.toCalendarDate.month ∧ date.toCalendarDate.month ≤ 12) →
      (1 ≤ date.toCalendarDate.day ∧ date.toCalendarDate.day ≤ 31) →
        MongoLog_nT.OutputDirectory self date
          = some (pathAppend
              (pathAppend self.fOutputDir (to_string date.toCalendarDate.year))
              (fmt0 2 date.toCalendarDate.month ++ "." ++ fmt0 2 date.toCalendarDate.day)) ∧
        fmt0 2 date.toCalendarDate.month
          = String.mk [Nat.digitChar (date.toCalendarDate.month.toNat / 10),
              Nat.digitChar (date.toCalendarDate.month.toNat % 10)] ∧
        fmt0 2 date.toCalendarDate.day
          = String.mk [Nat.digitChar (date.toCalendarDate.day.toNat / 10),
              Nat.digitChar (date.toCalendarDate.day.toNat % 10)] ∧
        (self.dynamicType = LoggerClass.MongoLog_nT →
          MongoLog.LogFilePath self date = (MongoLog_nT.OutputDirectory self date).map
            fun dir => pathAppend dir (self.fHostname ++ ".log"))) ∧
    (∀ (self : MongoLog) (date : Tm), MongoLog_nT.LogFileName self date = self.fHostname ++ ".log") ∧
    (MongoLog_nT.OutputDirectory sampleLoggerByDay (noonOf 2025 7 4) = some "root/2025/07.04" ∧
      MongoLog_nT.LogFileName sampleLoggerByDay (noonOf 2025 7 4) = "reader0.log" ∧
      MongoLog.LogFilePath sampleLoggerByDay (noonOf 2025 7 4)
        = some "root/2025/07.04/reader0.log") := by
  refine ⟨?_, fun _ _ => rfl, by decide, by decide, by decide⟩
  intro self date hm hd
  simp only [Tm.toCalendarDate] at hm hd ⊢
  refine ⟨nT_OutputDirectory_eq self date ⟨by omega, by omega⟩ hd,
    fmt0_two_digits _ (by omega) (by omega), fmt0_two_digits _ (by omega) (by omega), ?_⟩
  intro hdyn
  simp [MongoLog.LogFilePath, MongoLog.virtualOutputDirectory, MongoLog.virtualLogFileName, hdyn,
    MongoLog_nT.LogFileName]

/-- C7, at a concrete date: 2025-07-04 on a hierarchical logger. -/
theorem C7_hierarchical_directory_and_name_witness :
    (1 ≤ (noonOf 2025 7 4).toCalendarDate.month ∧ (noonOf 2025 7 4).toCalendarDate.month ≤ 12) ∧
    (1 ≤ (noonOf 2025 7 4).toCalendarDate.day ∧ (noonOf 2025 7 4).toCalendarDate.day ≤ 31) ∧
    MongoLog_nT.OutputDirectory sampleLoggerByDay (noonOf 2025 7 4)
      = some (pathAppend
          (pathAppend sampleLoggerByDay.fOutputDir
            (to_string (noonOf 2025 7 4).toCalendarDate.year))
          (fmt0 2 (noonOf 2025 7 4).toCalendarDate.month ++ "." ++
            fmt0 2 (noonOf 2025 7 4).toCalendarDate.day)) :=
  ⟨by decide, by decide,
    (C7_hierarchical_directory_and_name.1 sampleLoggerByDay (noonOf 2025 7 4) (by decide)
      (by decide)).1⟩

/-- C8: the flat path strategy of `MongoLog`.  For every date with a four-digit year,
month 1..12 and day 1..31, `LogFileName` is the year in four digits, the month in two
and the day in two (eight characters), followed by `_`, the host and `.log`.
`OutputDirectory` is the configured root whatever the date, and `LogFilePath` is the
root joined with that name. -/
theorem C8_flat_name_and_directory :
    (∀ (self : MongoLog) (date : Tm),
      (1000 ≤ date.toCalendarDate.year ∧ date.toCalendarDate.year ≤ 9999) →
      (1 ≤ date.toCalendarDate.month ∧ date.toCalendarDate.month ≤ 12) →
      (1 ≤ date.toCalendarDate.day ∧ date.toCalendarDate.day ≤ 31) →
        MongoLog.LogFileName self date
          = fmt0 4 date.toCalendarDate.year ++ fmt0 2 date.toCalendarDate.month ++
              fmt0 2 date.toCalendarDate.day ++ "_" ++ self.fHostname ++ ".log" ∧
        (fmt0 4 date.toCalendarDate.year).length = 4 ∧
        (fmt0 2 date.toCalendarDate.month).length = 2 ∧
        (fmt0 2 date.toCalendarDate.day).length = 2 ∧
        (fmt0 4 date.toCalendarDate.year ++ fmt0 2 date.toCalendarDate.month ++
          fmt0 2 date.toCalendarDate.day).length = 8) ∧
    (∀ (self : MongoLog) (date : Tm), MongoLog.OutputDirectory self date = self.fOutputDir) ∧
    (∀ (self : MongoLog) (date : Tm), self.dynamicType = LoggerClass.MongoLog →
      MongoLog.LogFilePath self date
        = some (pathAppend self.fOutputDir (MongoLog.LogFileName self date))) ∧
    (MongoLog.LogFileName sampleLogger (noonOf 2024 3 2) = "20240302_reader0.log" ∧
      MongoLog.LogFilePath sampleLogger (noonOf 2024 3 2)
        = some "/data/logs/20240302_reader0.log") := by
  refine ⟨?_, fun _ _ => rfl, ?_, by decide, by decide⟩
  · intro self date hy hm hd
    simp only [Tm.toCalendarDate] at hy hm hd ⊢
    have e1 := fmt0_length 3 (date.tm_year + 1900) (by omega) (by norm_num; omega)
    have e2 := fmt0_length 1 (date.tm_mon + 1) (by omega) (by norm_num; omega)
    have e3 := fmt0_length 1 date.tm_mday (by omega) (by norm_num; omega)
    refine ⟨LogFileName_eq self date hy ⟨by omega, by omega⟩ hd, e1, e2, e3, ?_⟩
    simp only [String.length_append, e1, e2, e3]
  · intro self date hdyn
    simp [MongoLog.LogFilePath, MongoLog.virtualOutputDirectory, MongoLog.virtualLogFileName, hdyn,
      MongoLog.OutputDirectory]

/-- C8, at a concrete date: 2024-03-02 on the sample logger. -/
theorem C8_flat_name_and_directory_witness :
    (1000 ≤ (noonOf 2024 3 2).toCalendarDate.year ∧ (noonOf 2024 3 2).toCalendarDate.year ≤ 9999) ∧
    (1 ≤ (noonOf 2024 3 2).toCalendarDate.month ∧ (noonOf 2024 3 2).toCalendarDate.month ≤ 12) ∧
    (1 ≤ (noonOf 2024 3 2).toCalendarDate.day ∧ (noonOf 2024 3 2).toCalendarDate.day ≤ 31) ∧
    MongoLog.LogFileName sampleLogger (noonOf 2024 3 2)
      = fmt0 4 (noonOf 2024 3 2).toCalendarDate.year ++
          fmt0 2 (noonOf 2024 3 2).toCalendarDate.month ++
          fmt0 2 (noonOf 2024 3 2).toCalendarDate.day ++ "_" ++ sampleLogger.fHostname ++ ".log" :=
  ⟨by decide, by decide, by decide,
    (C8_flat_name_and_directory.1 sampleLogger (noonOf 2024 3 2) (by decide) (by decide)
      (by decide)).1⟩


/-! ## Outcomes of `RotateLogFile` -/

/-- The condition of line 82 is false without a throw exactly when the parent directory
is there. -/
theorem directoryMissing_eq_false_iff (env : RotateEnv) :
    env.directoryMissing = FsAnswer.value false ↔ env.directoryAvailable := by
  unfold RotateEnv.directoryMissing RotateEnv.directoryAvailable
  cases h1 : env.pp_exists with
  | filesystem_error => simp
  | value b =>
    cases b
    · cases h2 : env.create_directories with
      | filesystem_error => simp
      | value c => cases c <;> simp
    · simp

/-- The condition of line 82 throws exactly when `exists` throws, or the directory does not
exist and `create_directories` throws. -/
theorem directoryMissing_eq_error_iff (env : RotateEnv) :
    env.directoryMissing = FsAnswer.filesystem_error ↔
      (env.pp_exists = FsAnswer.filesystem_error ∨ env.directoryCannotBeCreated) := by
  unfold RotateEnv.directoryMissing RotateEnv.directoryCannotBeCreated
  cases h1 : env.pp_exists with
  | filesystem_error => simp
  | value b =>
    cases b
    · cases h2 : env.create_directories with
      | filesystem_error => simp
      | value c => cases c <;> simp
    · simp

/-- A successful rotation with retention switched off: the exact outcome. -/
theorem RotateLogFile_window0 (self : MongoLog) (env : RotateEnv) (filename stamp : String)
    (hpath : MongoLog.LogFilePath self env.today = some filename)
    (hstamp : MongoLog.FormatTime env.today env.ms = some stamp)
    (hok : env.opens) (hw : self.fDeleteAfterDays = 0) :
    MongoLog.RotateLogFile self env = some
      { exit := Exit.returned 0
        self := { self with fOutfile := some filename, fToday := MongoLog.Today env.today }
        events := (if self.fOutfile.isSome then [Event.close] else []) ++
          [Event.console ("Logging to " ++ quoted filename ++ "\n"),
           Event.openAppend filename true,
           Event.fileWrite
            (stamp ++ " [INIT]: logfile initialized: commit " ++ REDAX_BUILD_COMMIT ++ "\n")
            true] } := by
  obtain ⟨hdir, hopen⟩ := hok
  have hdm := (directoryMissing_eq_false_iff env).mpr hdir
  have hp : MongoLog.LogFilePath { self with fOutfile := none } env.today = some filename := hpath
  have hw0 : (self.fDeleteAfterDays == 0) = true := by simp [hw]
  simp [MongoLog.RotateLogFile, hp, hstamp, hw0, hopen, hdm]

/-- The success case of `RotateLogFile` from the facts it needs: a defined path, a time
stamp that fits, and (with retention on) a defined expiry date and a cleanup that
does not throw. -/
theorem RotateLogFile_success_of (self : MongoLog) (env : RotateEnv) (filename stamp : String)
    (hpath : MongoLog.LogFilePath self env.today = some filename)
    (hstamp : MongoLog.FormatTime env.today env.ms = some stamp)
    (hopens : env.opens)
    (hlw : (self.fDeleteAfterDays == 0) = true ∨
      ((∃ lw, MongoLog.last_week self.fDeleteAfterDays env.today = some lw) ∧
        env.cleanupReturns)) :
    ∃ r, MongoLog.RotateLogFile self env = some r ∧ r.exit = Exit.returned 0 ∧
      r.self = { self with fOutfile := some filename, fToday := MongoLog.Today env.today } ∧
      insertAttempts r.events = 0 := by
  obtain ⟨hdir, hopen⟩ := hopens
  have hdm := (directoryMissing_eq_false_iff env).mpr hdir
  have hp : MongoLog.LogFilePath { self with fOutfile := none } env.today = some filename := hpath
  by_cases hw0 : (self.fDeleteAfterDays == 0) = true
  · cases hf : self.fOutfile <;>
      simp [MongoLog.RotateLogFile, hp, hstamp, hw0, hopen, hdm, hf, insertAttempts_append,
        insertAttempts_cons, insertAttempts_nil, Event.isInsert]
  · rcases hlw with h0 | ⟨⟨lw, hlw⟩, hclean⟩
    · exact absurd h0 hw0
    · rcases hclean with hold | ⟨hold, hrem⟩
      · cases hf : self.fOutfile <;>
          simp [MongoLog.RotateLogFile, hp, hstamp, hw0, hopen, hdm, hlw, hold, hf,
            insertAttempts_append, insertAttempts_cons, insertAttempts_nil, Event.isInsert]
      · cases hr : env.remove with
        | filesystem_error => exact absurd hr hrem
        | value b =>
          cases hf : self.fOutfile <;>
            simp [MongoLog.RotateLogFile, hp, hstamp, hw0, hopen, hdm, hlw, hold, hr, hf,
              insertAttempts_append, insertAttempts_cons, insertAttempts_nil, Event.isInsert]

/-- A rotation whose directory and file are available and whose cleanup does not throw
returns 0, leaves the file open and tracks the day of its own clock reading. -/
theorem RotateLogFile_success (self : MongoLog) (env : RotateEnv) (filename : String)
    (hpath : MongoLog.LogFilePath self env.today = some filename)
    (hclock : clockReading env.today env.ms) (hok : env.succeeds) :
    ∃ r, MongoLog.RotateLogFile self env = some r ∧ r.exit = Exit.returned 0 ∧
      r.self = { self with fOutfile := some filename, fToday := MongoLog.Today env.today } ∧
      insertAttempts r.events = 0 := by
  obtain ⟨stamp, hstamp, _⟩ := FormatTime_defined env.today env.ms hclock
  exact RotateLogFile_success_of self env filename stamp hpath hstamp hok.1
    (Or.inr ⟨last_week_defined self.fDeleteAfterDays env.today hclock.2.1, hok.2⟩)

/-- A rotation in which `create_directories` answers false, or whose file cannot be
opened, returns -1, leaves the stream closed, writes to no file and does not touch
the tracked day. -/
theorem RotateLogFile_failure (self : MongoLog) (env : RotateEnv) (filename : String)
    (hpath : MongoLog.LogFilePath self env.today = some filename)
    (hfail : env.directoryMissing = FsAnswer.value true ∨ env.fileCannotBeOpened) :
    ∃ r, MongoLog.RotateLogFile self env = some r ∧ r.exit = Exit.returned (-1) ∧
      r.self = { self with fOutfile := none } ∧ insertAttempts r.events = 0 ∧
      r.events.filter Event.isFileWrite = [] := by
  have hp : MongoLog.LogFilePath { self with fOutfile := none } env.today = some filename := hpath
  rcases hfail with hdm | ⟨hdir, hopen⟩
  · cases hf : self.fOutfile <;>
      simp [MongoLog.RotateLogFile, hp, hdm, hf, insertAttempts_append, insertAttempts_cons,
        insertAttempts_nil, Event.isInsert, Event.isFileWrite, List.filter_cons]
  · have hdm := (directoryMissing_eq_false_iff env).mpr hdir
    cases hf : self.fOutfile <;>
      simp [MongoLog.RotateLogFile, hp, hdm, hopen, hf, insertAttempts_append,
        insertAttempts_cons, insertAttempts_nil, Event.isInsert, Event.isFileWrite,
        List.filter_cons]

/-- A rotation in which `exists` or `create_directories` throws on the parent directory is
left by the exception right after the console line: the stream is closed, nothing
is written to a file and the tracked day is untouched. -/
theorem RotateLogFile_directory_throws (self : MongoLog) (env : RotateEnv) (filename : String)
    (hpath : MongoLog.LogFilePath self env.today = some filename)
    (hdm : env.directoryMissing = FsAnswer.filesystem_error) :
    ∃ r, MongoLog.RotateLogFile self env = some r ∧ r.exit = Exit.threw ∧
      r.self = { self with fOutfile := none } ∧ insertAttempts r.events = 0 ∧
      r.events.filter Event.isFileWrite = [] := by
  have hp : MongoLog.LogFilePath { self with fOutfile := none } env.today = some filename := hpath
  cases hf : self.fOutfile <;>
    simp [MongoLog.RotateLogFile, hp, hdm, hf, insertAttempts_append, insertAttempts_cons,
      insertAttempts_nil, Event.isInsert, Event.isFileWrite, List.filter_cons]

/-- In a world none of whose filesystem calls throws, the condition of line 82 does not
throw. -/
theorem quiet_directoryMissing (env : RotateEnv) (hq : env.quiet) :
    env.directoryMissing ≠ FsAnswer.filesystem_error := by
  intro h
  rcases (directoryMissing_eq_error_iff env).mp h with h1 | ⟨_, h2⟩
  · exact hq.1 h1
  · exact hq.2.1 h2

/-- Whatever the world answers, a rotation either runs into undefined behaviour or is left
after no `insert_one` call, having changed no member other than `fOutfile` and
`fToday`; it is left by an exception only if some filesystem call throws. -/
theorem RotateLogFile_cases (self : MongoLog) (env : RotateEnv) :
    MongoLog.RotateLogFile self env = none ∨
    ∃ r, MongoLog.RotateLogFile self env = some r ∧ insertAttempts r.events = 0 ∧
      r.self = { self with fOutfile := r.self.fOutfile, fToday := r.self.fToday } ∧
      (r.exit = Exit.threw → ¬ env.quiet) := by
  rcases Option.eq_none_or_eq_some
    (MongoLog.LogFilePath { self with fOutfile := none } env.today) with hp | ⟨filename, hp⟩
  · left
    simp only [MongoLog.RotateLogFile, hp, Option.bind_eq_bind, Option.none_bind]
  cases hdm : env.directoryMissing with
  | filesystem_error =>
    obtain ⟨r, hr, _, hself, hnone, _⟩ := RotateLogFile_directory_throws self env filename hp hdm
    exact Or.inr ⟨r, hr, hnone, by rw [hself], fun _ hq => quiet_directoryMissing env hq hdm⟩
  | value missing =>
    cases missing with
    | true =>
      obtain ⟨r, hr, hexit, hself, hnone, _⟩ :=
        RotateLogFile_failure self env filename hp (Or.inl hdm)
      exact Or.inr ⟨r, hr, hnone, by rw [hself], fun h => by rw [hexit] at h; cases h⟩
    | false =>
      have hdir := (directoryMissing_eq_false_iff env).mp hdm
      cases hopen : env.open_ok with
      | false =>
        obtain ⟨r, hr, hexit, hself, hnone, _⟩ :=
          RotateLogFile_failure self env filename hp (Or.inr ⟨hdir, hopen⟩)
        exact Or.inr ⟨r, hr, hnone, by rw [hself], fun h => by rw [hexit] at h; cases h⟩
      | true =>
        rcases Option.eq_none_or_eq_some (MongoLog.FormatTime env.today env.ms) with
          hs | ⟨stamp, hs⟩
        · left
          simp [MongoLog.RotateLogFile, hp, hdm, hopen, hs]
        by_cases hw0 : (self.fDeleteAfterDays == 0) = true
        · obtain ⟨r, hr, hexit, hself, hnone⟩ :=
            RotateLogFile_success_of self env filename stamp hp hs ⟨hdir, hopen⟩ (Or.inl hw0)
          exact Or.inr ⟨r, hr, hnone, by rw [hself], fun h => by rw [hexit] at h; cases h⟩
        rcases Option.eq_none_or_eq_some
          (MongoLog.last_week self.fDeleteAfterDays env.today) with hl | ⟨lw, hl⟩
        · left
          simp [MongoLog.RotateLogFile, hp, hdm, hopen, hs, hw0, hl]
        by_cases hclean : env.cleanupReturns
        · obtain ⟨r, hr, hexit, hself, hnone⟩ :=
            RotateLogFile_success_of self env filename stamp hp hs ⟨hdir, hopen⟩
              (Or.inr ⟨⟨lw, hl⟩, hclean⟩)
          exact Or.inr ⟨r, hr, hnone, by rw [hself], fun h => by rw [hexit] at h; cases h⟩
        · right
          have hnq : ¬ env.quiet := by
            intro hq
            apply hclean
            unfold RotateEnv.cleanupReturns
            cases ho : env.old_exists with
            | filesystem_error => exact absurd ho hq.2.2.1
            | value b =>
              cases b
              · exact Or.inl rfl
              · exact Or.inr ⟨rfl, hq.2.2.2⟩
          cases ho : env.old_exists with
          | filesystem_error =>
            cases hf : self.fOutfile <;>
              simp [MongoLog.RotateLogFile, hp, hdm, hopen, hs, hw0, hl, ho, hf, hnq,
                insertAttempts_append, insertAttempts_cons, insertAttempts_nil, Event.isInsert]
          | value b =>
            cases b with
            | false => exact absurd (Or.inl ho) hclean
            | true =>
              cases hr : env.remove with
              | value c => exact absurd (Or.inr ⟨ho, by rw [hr]; simp⟩) hclean
              | filesystem_error =>
                cases hf : self.fOutfile <;>
                  simp [MongoLog.RotateLogFile, hp, hdm, hopen, hs, hw0, hl, ho, hr, hf, hnq,
                    insertAttempts_append, insertAttempts_cons, insertAttempts_nil,
                    Event.isInsert]

/-- A rotation that opens its file and then meets a throwing `exists` or `remove` in the
cleanup is left by the exception with the new file open and the day already
tracked. -/
theorem RotateLogFile_cleanup_throws (self : MongoLog) (env : RotateEnv)
    (filename stamp : String) (lw : Tm)
    (hpath : MongoLog.LogFilePath self env.today = some filename)
    (hstamp : MongoLog.FormatTime env.today env.ms = some stamp)
    (hopens : env.opens) (hw0 : ¬ (self.fDeleteAfterDays == 0) = true)
    (hlw : MongoLog.last_week self.fDeleteAfterDays env.today = some lw)
    (hclean : ¬ env.cleanupReturns) :
    ∃ r, MongoLog.RotateLogFile self env = some r ∧ r.exit = Exit.threw ∧
      r.self = { self with fOutfile := some filename, fToday := MongoLog.Today env.today } ∧
      insertAttempts r.events = 0 := by
  obtain ⟨hdir, hopen⟩ := hopens
  have hdm := (directoryMissing_eq_false_iff env).mpr hdir
  have hp : MongoLog.LogFilePath { self with fOutfile := none } env.today = some filename := hpath
  cases ho : env.old_exists with
  | filesystem_error =>
    cases hf : self.fOutfile <;>
      simp [MongoLog.RotateLogFile, hp, hdm, hopen, hstamp, hw0, hlw, ho, hf,
        insertAttempts_append, insertAttempts_cons, insertAttempts_nil, Event.isInsert]
  | value b =>
    cases b with
    | false => exact absurd (Or.inl ho) hclean
    | true =>
      cases hr : env.remove with
      | value c => exact absurd (Or.inr ⟨ho, by rw [hr]; simp⟩) hclean
      | filesystem_error =>
        cases hf : self.fOutfile <;>
          simp [MongoLog.RotateLogFile, hp, hdm, hopen, hstamp, hw0, hlw, ho, hr, hf,
            insertAttempts_append, insertAttempts_cons, insertAttempts_nil, Event.isInsert]

/-- For every clock reading `RotateLogFile` has a defined outcome, whatever the filesystem
answers. -/
theorem RotateLogFile_defined (self : MongoLog) (env : RotateEnv)
    (hclock : clockReading env.today env.ms) :
    ∃ r, MongoLog.RotateLogFile self env = some r := by
  obtain ⟨filename, hp⟩ := LogFilePath_defined self env.today env.ms hclock
  obtain ⟨stamp, hs, _⟩ := FormatTime_defined env.today env.ms hclock
  obtain ⟨lw, hl⟩ := last_week_defined self.fDeleteAfterDays env.today hclock.2.1
  cases hdm : env.directoryMissing with
  | filesystem_error =>
    obtain ⟨r, hr, _⟩ := RotateLogFile_directory_throws self env filename hp hdm
    exact ⟨r, hr⟩
  | value missing =>
    cases missing with
    | true =>
      obtain ⟨r, hr, _⟩ := RotateLogFile_failure self env filename hp (Or.inl hdm)
      exact ⟨r, hr⟩
    | false =>
      have hdir := (directoryMissing_eq_false_iff env).mp hdm
      cases hopen : env.open_ok with
      | false =>
        obtain ⟨r, hr, _⟩ := RotateLogFile_failure self env filename hp (Or.inr ⟨hdir, hopen⟩)
        exact ⟨r, hr⟩
      | true =>
        by_cases hw0 : (self.fDeleteAfterDays == 0) = true
        · obtain ⟨r, hr, _⟩ :=
            RotateLogFile_success_of self env filename stamp hp hs ⟨hdir, hopen⟩ (Or.inl hw0)
          exact ⟨r, hr⟩
        by_cases hclean : env.cleanupReturns
        · obtain ⟨r, hr, _⟩ :=
            RotateLogFile_success_of self env filename stamp hp hs ⟨hdir, hopen⟩
              (Or.inr ⟨⟨lw, hl⟩, hclean⟩)
          exact ⟨r, hr⟩
        · obtain ⟨r, hr, _⟩ :=
            RotateLogFile_cleanup_throws self env filename stamp lw hp hs ⟨hdir, hopen⟩ hw0 hl
              hclean
          exact ⟨r, hr⟩

/-! ## Outcomes of `Entry` -/

/-- A priority with an entry in the table has its label looked up inside the table. -/
theorem vectorAt_known (self : MongoLog) (priority : Int) (h : self.knownPriority priority) :
    ∃ label, vectorAt self.fPriorities (priority + 1) = some label ∧
      self.fPriorities.get? (priority + 1).toNat = some label ∧ label ∈ self.fPriorities := by
  obtain ⟨h0, h1⟩ := h
  have hlt : (priority + 1).toNat < self.fPriorities.length := by omega
  refine ⟨self.fPriorities.get ⟨(priority + 1).toNat, hlt⟩, ?_, ?_, List.get_mem _ _ _⟩
  · simp [vectorAt, h0, List.getElem?_eq_getElem hlt]
  · simp [List.getElem?_eq_getElem hlt]

/-- The unchecked lookup has a value only for a priority with an entry in the table. -/
theorem knownPriority_of_vectorAt (self : MongoLog) (priority : Int) (label : String)
    (h : vectorAt self.fPriorities (priority + 1) = some label) :
    self.knownPriority priority ∧ self.fPriorities.get? (priority + 1).toNat = some label := by
  unfold vectorAt at h
  by_cases h0 : 0 ≤ priority + 1
  · rw [if_pos h0] at h
    have hlt : (priority + 1).toNat < self.fPriorities.length := by
      by_contra hge
      rw [List.get?_eq_none.mpr (by omega)] at h
      cases h
    exact ⟨⟨h0, by omega⟩, h⟩
  · rw [if_neg h0] at h
    cases h

/-- An `Entry` call on the tracked day: no rotation; console line, file line, then the
remote insert. -/
theorem Entry_same_day (self : MongoLog) (priority : Int) (message : String) (env : EntryEnv)
    (stamp label : String)
    (hs : MongoLog.FormatTime env.today env.ms = some stamp)
    (hl : vectorAt self.fPriorities (priority + 1) = some label)
    (hday : MongoLog.Today env.today = self.fToday) :
    MongoLog.Entry self priority message env = some
      { exit := Exit.returned (insertOutcome self priority message env.insert_ok).1
        self := self
        events := [Event.console (stamp ++ " [" ++ label ++ "]: " ++ message ++ "\n"),
          Event.fileWrite (stamp ++ " [" ++ label ++ "]: " ++ message ++ "\n")
            self.fOutfile.isSome] ++ (insertOutcome self priority message env.insert_ok).2
        rotation := none } := by
  have hb : (MongoLog.Today env.today != self.fToday) = false := by simp [hday]
  by_cases hlvl : priority ≥ self.fLogLevel
  · cases hins : env.insert_ok <;>
      simp [MongoLog.Entry, hs, hl, hb, hlvl, hins, insertOutcome]
  · simp [MongoLog.Entry, hs, hl, hb, hlvl, insertOutcome]

/-- An `Entry` call whose rotation is left by an exception: `Entry` is left by it too,
after the console line and the actions of the rotation, before the file line and
the remote insert. -/
theorem Entry_rotation_threw (self : MongoLog) (priority : Int) (message : String)
    (env : EntryEnv) (stamp label : String) (rr : RotateResult)
    (hs : MongoLog.FormatTime env.today env.ms = some stamp)
    (hl : vectorAt self.fPriorities (priority + 1) = some label)
    (hday : MongoLog.Today env.today ≠ self.fToday)
    (hrr : MongoLog.RotateLogFile self env.rotate = some rr) (hexit : rr.exit = Exit.threw) :
    MongoLog.Entry self priority message env = some
      { exit := Exit.threw
        self := rr.self
        events := Event.console (stamp ++ " [" ++ label ++ "]: " ++ message ++ "\n") ::
          rr.events
        rotation := some Exit.threw } := by
  have hb : (MongoLog.Today env.today != self.fToday) = true := by simp [hday]
  simp [MongoLog.Entry, hs, hl, hb, hrr, hexit]

/-- An `Entry` call whose rotation returns, with whatever value: the value is discarded;
console line, actions of the rotation, file line, then the remote insert. -/
theorem Entry_rotation_returned (self : MongoLog) (priority : Int) (message : String)
    (env : EntryEnv) (stamp label : String) (rr : RotateResult) (code : Int)
    (hs : MongoLog.FormatTime env.today env.ms = some stamp)
    (hl : vectorAt self.fPriorities (priority + 1) = some label)
    (hday : MongoLog.Today env.today ≠ self.fToday)
    (hrr : MongoLog.RotateLogFile self env.rotate = some rr)
    (hexit : rr.exit = Exit.returned code) :
    MongoLog.Entry self priority message env = some
      { exit := Exit.returned (insertOutcome rr.self priority message env.insert_ok).1
        self := rr.self
        events := Event.console (stamp ++ " [" ++ label ++ "]: " ++ message ++ "\n") ::
          (rr.events ++
            (Event.fileWrite (stamp ++ " [" ++ label ++ "]: " ++ message ++ "\n")
              rr.self.fOutfile.isSome :: (insertOutcome rr.self priority message env.insert_ok).2))
        rotation := some (Exit.returned code) } := by
  have hb : (MongoLog.Today env.today != self.fToday) = true := by simp [hday]
  by_cases hlvl : priority ≥ rr.self.fLogLevel
  · cases hins : env.insert_ok <;>
      simp [MongoLog.Entry, hs, hl, hb, hrr, hexit, hlvl, hins, insertOutcome]
  · simp [MongoLog.Entry, hs, hl, hb, hrr, hexit, hlvl, insertOutcome]

/-- The return value of the insert step: -1 exactly when the insert is attempted and
throws. -/
theorem insertOutcome_code (self : MongoLog) (priority : Int) (message : String) (ok : Bool) :
    (insertOutcome self priority message ok).1
      = (if priority ≥ self.fLogLevel ∧ ok = false then -1 else 0) := by
  by_cases hlvl : priority ≥ self.fLogLevel <;> cases ok <;> simp [insertOutcome, hlvl]

/-- The insert step calls `insert_one` once at or above the threshold, never below. -/
theorem insertOutcome_count (self : MongoLog) (priority : Int) (message : String) (ok : Bool) :
    insertAttempts (insertOutcome self priority message ok).2
      = (if priority ≥ self.fLogLevel then 1 else 0) := by
  by_cases hlvl : priority ≥ self.fLogLevel <;> cases ok <;>
    simp [insertOutcome, hlvl, insertAttempts_cons, insertAttempts_nil, Event.isInsert]

/-- The insert step depends on the logger only through the threshold, the host and the
run identifier. -/
theorem insertOutcome_congr (a b : MongoLog) (priority : Int) (message : String) (ok : Bool)
    (h1 : a.fLogLevel = b.fLogLevel) (h2 : a.fHostname = b.fHostname)
    (h3 : a.fRunId = b.fRunId) :
    insertOutcome a priority message ok = insertOutcome b priority message ok := by
  simp [insertOutcome, h1, h2, h3]

/-- When the insert is attempted and throws, the console line of the `catch` block is the
last action. -/
theorem insertOutcome_last (self : MongoLog) (priority : Int) (message : String)
    (front : List Event) (hlvl : priority ≥ self.fLogLevel) :
    (front ++ (insertOutcome self priority message false).2).getLast?
      = some (Event.console ("Failed to insert log message " ++ message ++ " (" ++
          to_string priority ++ ")\n")) := by
  simp [insertOutcome, hlvl, List.getLast?_append]

/-- Whatever the world answers and whatever the logger holds, an `Entry` call either runs
into undefined behaviour or has an outcome.  Then the label was found in the table
and the first action is the console line with that label.  Either a
`filesystem_error` of the rotation left `Entry` before any insert, or `Entry`
returned: with one `insert_one` call exactly when the priority reaches `fLogLevel`,
and with -1 exactly when that call threw. -/
theorem Entry_cases (self : MongoLog) (priority : Int) (message : String) (env : EntryEnv) :
    MongoLog.Entry self priority message env = none ∨
    ∃ r stamp label, MongoLog.Entry self priority message env = some r ∧
      MongoLog.FormatTime env.today env.ms = some stamp ∧
      vectorAt self.fPriorities (priority + 1) = some label ∧
      r.events.head? = some (Event.console (stamp ++ " [" ++ label ++ "]: " ++ message ++ "\n")) ∧
      ((r.exit = Exit.threw ∧ insertAttempts r.events = 0 ∧ r.rotation = some Exit.threw ∧
          MongoLog.Today env.today ≠ self.fToday ∧ ¬ env.rotate.quiet) ∨
       (r.exit = Exit.returned (if priority ≥ self.fLogLevel ∧ env.insert_ok = false then -1
            else 0) ∧
          insertAttempts r.events = (if priority ≥ self.fLogLevel then 1 else 0) ∧
          (priority ≥ self.fLogLevel → env.insert_ok = false →
            r.events.getLast? = some (Event.console ("Failed to insert log message " ++
              message ++ " (" ++ to_string priority ++ ")\n"))))) := by
  rcases Option.eq_none_or_eq_some (MongoLog.FormatTime env.today env.ms) with
    hs | ⟨stamp, hs⟩
  · left
    simp [MongoLog.Entry, hs]
  rcases Option.eq_none_or_eq_some (vectorAt self.fPriorities (priority + 1)) with
    hl | ⟨label, hl⟩
  · left
    simp [MongoLog.Entry, hs, hl]
  by_cases hday : MongoLog.Today env.today = self.fToday
  · right
    refine ⟨_, stamp, label, Entry_same_day self priority message env stamp label hs hl hday,
      hs, hl, rfl, Or.inr ⟨?_, ?_, ?_⟩⟩
    · simp only [insertOutcome_code]
    · simp only [List.cons_append, List.nil_append, insertAttempts_cons, Event.isInsert,
        insertOutcome_count]
      simp
    · intro hlvl hins
      simp only [hins]
      exact insertOutcome_last self priority message _ hlvl
  · rcases RotateLogFile_cases self env.rotate with hr | ⟨rr, hr, hnone, hself, hquiet⟩
    · left
      have hb : (MongoLog.Today env.today != self.fToday) = true := by simp [hday]
      simp [MongoLog.Entry, hs, hl, hb, hr]
    · right
      cases hexit : rr.exit with
      | threw =>
        refine ⟨_, stamp, label,
          Entry_rotation_threw self priority message env stamp label rr hs hl hday hr hexit,
          hs, hl, rfl, Or.inl ⟨rfl, ?_, rfl, hday, hquiet hexit⟩⟩
        simp [insertAttempts_cons, Event.isInsert, hnone]
      | returned code =>
        have hcongr : insertOutcome rr.self priority message env.insert_ok
            = insertOutcome self priority message env.insert_ok :=
          insertOutcome_congr _ _ _ _ _ (by rw [hself]) (by rw [hself]) (by rw [hself])
        refine ⟨_, stamp, label,
          Entry_rotation_returned self priority message env stamp label rr code hs hl hday hr
            hexit,
          hs, hl, rfl, Or.inr ⟨?_, ?_, ?_⟩⟩
        · simp only [hcongr, insertOutcome_code]
        · simp only [hcongr, insertAttempts_cons, insertAttempts_append, Event.isInsert, hnone,
            insertOutcome_count]
          simp
        · intro hlvl hins
          have hcongr2 : insertOutcome rr.self priority message false
              = insertOutcome self priority message false :=
            insertOutcome_congr _ _ _ _ _ (by rw [hself]) (by rw [hself]) (by rw [hself])
          simp only [hins, hcongr2]
          have := insertOutcome_last self priority message
            (Event.console (stamp ++ " [" ++ label ++ "]: " ++ message ++ "\n") ::
              (rr.events ++ [Event.fileWrite (stamp ++ " [" ++ label ++ "]: " ++ message ++ "\n")
                rr.self.fOutfile.isSome])) hlvl
          simpa using this

/-- An `Entry` call whose priority has a label and whose clock readings are in range has
an outcome, whatever the filesystem and the database answer. -/
theorem Entry_defined (self : MongoLog) (priority : Int) (message : String) (env : EntryEnv)
    (hp : self.knownPriority priority) (hclock : env.clockOk) :
    ∃ r, MongoLog.Entry self priority message env = some r := by
  obtain ⟨hc1, hc2⟩ := hclock
  obtain ⟨stamp, hs, _⟩ := FormatTime_defined env.today env.ms hc1
  obtain ⟨label, hl, _⟩ := vectorAt_known self priority hp
  by_cases hday : MongoLog.Today env.today = self.fToday
  · exact ⟨_, Entry_same_day self priority message env stamp label hs hl hday⟩
  · obtain ⟨rr, hr⟩ := RotateLogFile_defined self env.rotate hc2
    cases hexit : rr.exit with
    | threw =>
      exact ⟨_, Entry_rotation_threw self priority message env stamp label rr hs hl hday hr hexit⟩
    | returned code =>
      exact ⟨_, Entry_rotation_returned self priority message env stamp label rr code hs hl hday
        hr hexit⟩

/-- An `Entry` call whose priority has a label and whose clock readings are in range
returns, by `return`, when it does not rotate or when no filesystem call of the
rotation throws: its value is -1 exactly when the insert was attempted and threw,
and the insert is attempted exactly when the priority reaches `fLogLevel`. -/
theorem Entry_returns (self : MongoLog) (priority : Int) (message : String) (env : EntryEnv)
    (hp : self.knownPriority priority) (hclock : env.clockOk)
    (hquiet : MongoLog.Today env.today = self.fToday ∨ env.rotate.quiet) :
    ∃ r, MongoLog.Entry self priority message env = some r ∧
      r.exit = Exit.returned (if priority ≥ self.fLogLevel ∧ env.insert_ok = false then -1
        else 0) ∧
      insertAttempts r.events = (if priority ≥ self.fLogLevel then 1 else 0) := by
  obtain ⟨r, hr⟩ := Entry_defined self priority message env hp hclock
  rcases Entry_cases self priority message env with hn | ⟨r', _, _, hr', _, _, _, hcase⟩
  · rw [hn] at hr; cases hr
  · rw [hr] at hr'
    cases hr'
    rcases hcase with ⟨_, _, _, hday, hnq⟩ | ⟨hexit, hcount, _⟩
    · rcases hquiet with h | h
      · exact absurd h hday
      · exact absurd h hnq
    · exact ⟨r, hr, hexit, hcount⟩

/-! ## The claims about `Entry` -/

/-- C1 fails as stated: on the sample logger (threshold 1) a call with priority 2 on
2024-02-29 rotates in a world where the output directory cannot be created; the
`filesystem_error` of `create_directories` leaves `Entry` before the threshold test,
and no `insert_one` call is made although `2 >= fLogLevel`.  And a call with
priority 5, which is also at least the threshold, indexes outside the six labels of
the table: that call has no defined outcome at all. -/
theorem C1_counterexample_no_insert_at_or_above_threshold :
    (2 : Int) ≥ sampleLogger.fLogLevel ∧
    (MongoLog.Entry sampleLogger 2 "run started" (worldWithoutDirectory 2024 2 29)).map
      (fun r => (r.exit, insertAttempts r.events)) = some (Exit.threw, 0) ∧
    (5 : Int) ≥ sampleLogger.fLogLevel ∧
    MongoLog.Entry sampleLogger 5 "run started" (worldAt 2024 2 28 true) = none := by
  decide

/-- C1 as amended: for every logger state, an `Entry` call that returns attempts the remote
insert if and only if the priority is at least `fLogLevel`.  First part: whatever the
world answers, a call that is left by `return` has made exactly one `insert_one` call
when `priority >= fLogLevel` and none otherwise; a call that a `filesystem_error` of
the rotation leaves has made none; and a call has an outcome only when its priority
has a label in the table.  Second part: the call does return whenever the priority
has a label, the clock readings are in range and either the day is the tracked day
or no filesystem call of the rotation throws.  Third part: the constructor leaves
the threshold 1, and on the logger it builds such calls with the priorities 0, 1
and 2 make 0, 1 and 1 `insert_one` calls. -/
theorem C1_insert_iff_priority_reaches_fLogLevel :
    (∀ (self : MongoLog) (priority : Int) (message : String) (env : EntryEnv) (r : EntryResult),
      MongoLog.Entry self priority message env = some r →
        self.knownPriority priority ∧
        (r.exit = Exit.threw → insertAttempts r.events = 0) ∧
        (r.exit ≠ Exit.threw →
          (insertAttempts r.events = 1 ↔ priority ≥ self.fLogLevel) ∧
          (insertAttempts r.events = 0 ↔ priority < self.fLogLevel))) ∧
    (∀ (self : MongoLog) (priority : Int) (message : String) (env : EntryEnv),
      self.knownPriority priority → env.clockOk →
      (MongoLog.Today env.today = self.fToday ∨ env.rotate.quiet) →
        ∃ r, MongoLog.Entry self priority message env = some r ∧ r.exit ≠ Exit.threw ∧
          insertAttempts r.events = (if priority ≥ self.fLogLevel then 1 else 0)) ∧
    (∀ (dynamicType : LoggerClass) (fPriorities : List String) (fToday DeleteAfterDays : Int)
      (log_dir host message : String) (env : EntryEnv),
      4 ≤ fPriorities.length → env.clockOk →
      (MongoLog.Today env.today = fToday ∨ env.rotate.quiet) →
        (MongoLog.ctor dynamicType fPriorities fToday DeleteAfterDays log_dir host).1.fLogLevel
          = 1 ∧
        (MongoLog.Entry
          (MongoLog.ctor dynamicType fPriorities fToday DeleteAfterDays log_dir host).1
          0 message env).map (fun r => insertAttempts r.events) = some 0 ∧
        (MongoLog.Entry
          (MongoLog.ctor dynamicType fPriorities fToday DeleteAfterDays log_dir host).1
          1 message env).map (fun r => insertAttempts r.events) = some 1 ∧
        (MongoLog.Entry
          (MongoLog.ctor dynamicType fPriorities fToday DeleteAfterDays log_dir host).1
          2 message env).map (fun r => insertAttempts r.events) = some 1) := by
  refine ⟨?_, ?_, ?_⟩
  · intro self priority message env r h
    rcases Entry_cases self priority message env with hn | ⟨r', _, label, hr', _, hl, _, hcase⟩
    · rw [hn] at h; cases h
    · rw [hr'] at h
      cases h
      refine ⟨(knownPriority_of_vectorAt self priority label hl).1, ?_, ?_⟩
      · intro hthrew
        rcases hcase with ⟨_, hzero, _⟩ | ⟨hexit, _, _⟩
        · exact hzero
        · rw [hexit] at hthrew; cases hthrew
      · intro hret
        rcases hcase with ⟨hexit, _⟩ | ⟨_, hcount, _⟩
        · exact absurd hexit hret
        · rw [hcount]
          by_cases hlvl : priority ≥ self.fLogLevel
          · rw [if_pos hlvl]
            exact ⟨⟨fun _ => hlvl, fun _ => rfl⟩, ⟨fun h => (by cases h), fun h => (by omega)⟩⟩
          · rw [if_neg hlvl]
            exact ⟨⟨fun h => (by cases h), fun h => absurd h hlvl⟩,
              ⟨fun _ => (by omega), fun _ => rfl⟩⟩
  · intro self priority message env hp hclock hquiet
    obtain ⟨r, hr, hexit, hcount⟩ := Entry_returns self priority message env hp hclock hquiet
    exact ⟨r, hr, by rw [hexit]; exact fun h => (by cases h), hcount⟩
  · intro dynamicType fPriorities fToday DeleteAfterDays log_dir host message env hlen hclock
      hquiet
    have hk : ∀ p : Int, 0 ≤ p → p ≤ 2 →
        (MongoLog.ctor dynamicType fPriorities fToday DeleteAfterDays log_dir host).1.knownPriority
          p := by
      intro p h0 h2
      constructor
      · omega
      · show p + 1 < (fPriorities.length : Int)
        omega
    refine ⟨rfl, ?_, ?_, ?_⟩
    · obtain ⟨r, hr, _, hcount⟩ :=
        Entry_returns _ 0 message env (hk 0 (by omega) (by omega)) hclock hquiet
      rw [hr]
      simpa [MongoLog.ctor] using hcount
    · obtain ⟨r, hr, _, hcount⟩ :=
        Entry_returns _ 1 message env (hk 1 (by omega) (by omega)) hclock hquiet
      rw [hr]
      simpa [MongoLog.ctor] using hcount
    · obtain ⟨r, hr, _, hcount⟩ :=
        Entry_returns _ 2 message env (hk 2 (by omega) (by omega)) hclock hquiet
      rw [hr]
      simpa [MongoLog.ctor] using hcount

/-- C1 as amended, at a concrete call: on the sample logger a warning (priority 2) at noon
of 2024-02-28 has a label, the clock is in range, the day is the tracked day, and
`Entry` returns after one `insert_one` call. -/
theorem C1_insert_iff_priority_reaches_fLogLevel_witness :
    sampleLogger.knownPriority 2 ∧ (worldAt 2024 2 28 true).clockOk ∧
    (MongoLog.Today (worldAt 2024 2 28 true).today = sampleLogger.fToday ∨
      (worldAt 2024 2 28 true).rotate.quiet) ∧
    ∃ r, MongoLog.Entry sampleLogger 2 "run started" (worldAt 2024 2 28 true) = some r ∧
      r.exit ≠ Exit.threw ∧
      insertAttempts r.events = (if (2 : Int) ≥ sampleLogger.fLogLevel then 1 else 0) :=
  ⟨by decide, by decide, by decide,
    C1_insert_iff_priority_reaches_fLogLevel.2.1 sampleLogger 2 "run started"
      (worldAt 2024 2 28 true) (by decide) (by decide) (by decide)⟩

/-- C2 fails as stated: on the sample logger (threshold 1) a call with priority 2 whose
`insert_one` throws returns -1, not the success code 0. -/
theorem C2_counterexample_failed_insert_returns_minus_one :
    (2 : Int) ≥ sampleLogger.fLogLevel ∧ (worldAt 2024 2 28 false).insert_ok = false ∧
    (MongoLog.Entry sampleLogger 2 "run started" (worldAt 2024 2 28 false)).map
      (fun r => r.exit) = some (Exit.returned (-1)) ∧
    (MongoLog.Entry sampleLogger 2 "run started" (worldAt 2024 2 28 false)).map
      (fun r => r.exit) ≠ some (Exit.returned 0) := by
  decide

/-- C2 as amended: when the priority reaches `fLogLevel` and `insert_one` throws, the
exception is caught inside `Entry` (the call returns normally), the failure is the
last thing reported on the console, with the message and the priority, and the
return value is -1.  First part: every call in which the insert was attempted.
Second part: every call with an outcome that does not rotate or whose rotation meets
no throwing filesystem call.  Third part: such a call does return whenever the
priority has a label and the clock readings are in range. -/
theorem C2_failed_insert_is_caught_and_returns_minus_one (self : MongoLog) (priority : Int)
    (message : String) (env : EntryEnv)
    (hlvl : priority ≥ self.fLogLevel) (hthrows : env.insert_ok = false) :
    (∀ r, MongoLog.Entry self priority message env = some r → 0 < insertAttempts r.events →
      r.exit = Exit.returned (-1) ∧
      r.events.getLast? = some (Event.console ("Failed to insert log message " ++ message ++
        " (" ++ to_string priority ++ ")\n"))) ∧
    (∀ r, MongoLog.Entry self priority message env = some r →
      (MongoLog.Today env.today = self.fToday ∨ env.rotate.quiet) →
      r.exit = Exit.returned (-1) ∧
      r.events.getLast? = some (Event.console ("Failed to insert log message " ++ message ++
        " (" ++ to_string priority ++ ")\n"))) ∧
    (self.knownPriority priority → env.clockOk →
      (MongoLog.Today env.today = self.fToday ∨ env.rotate.quiet) →
      ∃ r, MongoLog.Entry self priority message env = some r ∧ r.exit = Exit.returned (-1)) := by
  have hcode : (if priority ≥ self.fLogLevel ∧ env.insert_ok = false then (-1 : Int) else 0)
      = -1 := if_pos ⟨hlvl, hthrows⟩
  refine ⟨?_, ?_, ?_⟩
  · intro r h hattempt
    rcases Entry_cases self priority message env with hn | ⟨r', _, _, hr', _, _, _, hcase⟩
    · rw [hn] at h; cases h
    · rw [hr'] at h
      cases h
      rcases hcase with ⟨_, hzero, _⟩ | ⟨hexit, _, hlast⟩
      · omega
      · rw [hcode] at hexit
        exact ⟨hexit, hlast hlvl hthrows⟩
  · intro r h hquiet
    rcases Entry_cases self priority message env with hn | ⟨r', _, _, hr', _, _, _, hcase⟩
    · rw [hn] at h; cases h
    · rw [hr'] at h
      cases h
      rcases hcase with ⟨_, _, _, hday, hnq⟩ | ⟨hexit, _, hlast⟩
      · rcases hquiet with hq | hq
        · exact absurd hq hday
        · exact absurd hq hnq
      · rw [hcode] at hexit
        exact ⟨hexit, hlast hlvl hthrows⟩
  · intro hp hclock hquiet
    obtain ⟨r, hr, hexit, _⟩ := Entry_returns self priority message env hp hclock hquiet
    rw [hcode] at hexit
    exact ⟨r, hr, hexit⟩

/-- C2 as amended, at a concrete call: priority 2 on the sample logger with a throwing
`insert_one`. -/
theorem C2_failed_insert_is_caught_and_returns_minus_one_witness :
    (2 : Int) ≥ sampleLogger.fLogLevel ∧ (worldAt 2024 2 28 false).insert_ok = false ∧
    sampleLogger.knownPriority 2 ∧ (worldAt 2024 2 28 false).clockOk ∧
    (MongoLog.Today (worldAt 2024 2 28 false).today = sampleLogger.fToday ∨
      (worldAt 2024 2 28 false).rotate.quiet) ∧
    ∃ r, MongoLog.Entry sampleLogger 2 "run started" (worldAt 2024 2 28 false) = some r ∧
      r.exit = Exit.returned (-1) :=
  ⟨by decide, rfl, by decide, by decide, by decide,
    (C2_failed_insert_is_caught_and_returns_minus_one sampleLogger 2 "run started"
      (worldAt 2024 2 28 false) (by decide) rfl).2.2 (by decide) (by decide) (by decide)⟩

/-- One `Entry` call in a world whose rotation succeeds on the day of the entry: the call
returns, `RotateLogFile` is called exactly when the day differs from the tracked day, the
tracked day afterwards is the day of the entry, and the label table is untouched. -/
theorem Entry_tracks_day (self : MongoLog) (priority : Int) (message : String) (env : EntryEnv)
    (hp : self.knownPriority priority) (hclock : env.clockOk) (hok : env.rotate.succeeds)
    (hsame : MongoLog.Today env.rotate.today = MongoLog.Today env.today) :
    ∃ r, MongoLog.Entry self priority message env = some r ∧ r.exit ≠ Exit.threw ∧
      (r.rotation.isSome = true ↔ MongoLog.Today env.today ≠ self.fToday) ∧
      r.self.fToday = MongoLog.Today env.today ∧ r.self.fPriorities = self.fPriorities := by
  obtain ⟨hc1, hc2⟩ := hclock
  obtain ⟨stamp, hs, _⟩ := FormatTime_defined env.today env.ms hc1
  obtain ⟨label, hl, _⟩ := vectorAt_known self priority hp
  by_cases hday : MongoLog.Today env.today = self.fToday
  · exact ⟨_, Entry_same_day self priority message env stamp label hs hl hday,
      fun h => (by cases h), ⟨fun h => (by cases h), fun h => absurd hday h⟩, hday.symm, rfl⟩
  · obtain ⟨filename, hpath⟩ := LogFilePath_defined self env.rotate.today env.rotate.ms hc2
    obtain ⟨rr, hr, hexit, hself, _⟩ := RotateLogFile_success self env.rotate filename hpath hc2 hok
    refine ⟨_, Entry_rotation_returned self priority message env stamp label rr 0 hs hl hday hr
      hexit, fun h => (by cases h), ⟨fun _ => hday, fun _ => rfl⟩, ?_, ?_⟩
    · show rr.self.fToday = MongoLog.Today env.today
      rw [hself]
      exact hsame
    · show rr.self.fPriorities = self.fPriorities
      rw [hself]

/-- The last element of a non-empty list needs no default. -/
theorem getLast?_getD_cons {α : Type} (x : α) (l : List α) (a b : α) :
    ((x :: l).getLast?).getD a = ((x :: l).getLast?).getD b := by
  rw [List.getLast?_eq_getLast _ (List.cons_ne_nil x l)]
  rfl

/-- A sequence of `Entry` calls, each with a labelled priority, clock readings in range, a
rotation that would succeed and a clock inside `RotateLogFile` on the day of the
entry: all calls return, the number of `RotateLogFile` calls is the number of day
changes along the sequence, and the tracked day ends at the day of the last entry. -/
theorem runEntries_rotations (calls : List EntryCall) : ∀ (self : MongoLog),
    (∀ c ∈ calls, self.knownPriority c.priority ∧ c.env.clockOk ∧ c.env.rotate.succeeds ∧
      MongoLog.Today c.env.rotate.today = MongoLog.Today c.env.today) →
    ∃ final rs, MongoLog.runEntries self calls = some (final, rs) ∧
      rs.length = calls.length ∧ (∀ r ∈ rs, r.exit ≠ Exit.threw) ∧
      rotationCount rs = dayChanges self.fToday (calls.map fun c => MongoLog.Today c.env.today) ∧
      final.fToday
        = ((calls.map fun c => MongoLog.Today c.env.today).getLast?).getD self.fToday := by
  induction calls with
  | nil =>
    intro self _
    exact ⟨self, [], rfl, rfl, fun _ h => (by cases h), rfl, rfl⟩
  | cons c rest ih =>
    intro self h
    obtain ⟨hp, hclock, hok, hsame⟩ := h c (List.mem_cons_self c rest)
    obtain ⟨r, hr, hexit, hrot, hday, htable⟩ :=
      Entry_tracks_day self c.priority c.message c.env hp hclock hok hsame
    have hrest : ∀ c' ∈ rest, r.self.knownPriority c'.priority ∧ c'.env.clockOk ∧
        c'.env.rotate.succeeds ∧
        MongoLog.Today c'.env.rotate.today = MongoLog.Today c'.env.today := by
      intro c' hc'
      obtain ⟨h1, h2⟩ := h c' (List.mem_cons_of_mem c hc')
      refine ⟨?_, h2⟩
      unfold MongoLog.knownPriority at h1 ⊢
      rw [htable]
      exact h1
    obtain ⟨final, rs, hrun, hlen, hall, hcount, hfinal⟩ := ih r.self hrest
    refine ⟨final, r :: rs, ?_, ?_, ?_, ?_, ?_⟩
    · simp [MongoLog.runEntries, hr, hrun, hexit]
    · simp [hlen]
    · intro r' hr'
      rcases List.mem_cons.mp hr' with h | h
      · rw [h]; exact hexit
      · exact hall r' h
    · rw [hday] at hcount
      by_cases hd : MongoLog.Today c.env.today = self.fToday
      · have hno : r.rotation.isSome = false := by
          cases hx : r.rotation.isSome
          · rfl
          · exact absurd hd (hrot.mp hx)
        simp [rotationCount, List.filter_cons, hno, dayChanges, hd]
        simpa [rotationCount, hd] using hcount
      · have hyes : r.rotation.isSome = true := hrot.mpr hd
        simp [rotationCount, List.filter_cons, hyes, dayChanges, hd]
        simp [rotationCount] at hcount
        omega
    · rw [hday] at hfinal
      rw [hfinal]
      cases rest with
      | nil => simp
      | cons c2 rest2 =>
        simp only [List.map_cons, List.getLast?_cons_cons]
        exact getLast?_getD_cons _ _ _ _

/-- C4: rotation happens exactly once per calendar-day transition.  First part, one call:
when the rotation succeeds and the clock read inside `RotateLogFile` is on the day
of the entry, `Entry` returns, it calls `RotateLogFile` exactly when `Today(now)`
differs from `fToday`, and afterwards `fToday` equals `Today(now)`.  Second part, any sequence of
such calls (clock readings non-decreasing or not): every call returns and the number
of rotations equals the number of day changes, counted from the initially tracked
day.  Third part: with the file tracked for 20240228, entries on 2024-02-28,
2024-02-29 and 2024-03-01 trigger exactly two rotations. -/
theorem C4_rotation_once_per_day_change :
    (∀ (self : MongoLog) (priority : Int) (message : String) (env : EntryEnv),
      self.knownPriority priority → env.clockOk → env.rotate.succeeds →
      MongoLog.Today env.rotate.today = MongoLog.Today env.today →
        ∃ r, MongoLog.Entry self priority message env = some r ∧ r.exit ≠ Exit.threw ∧
          (r.rotation.isSome = true ↔ MongoLog.Today env.today ≠ self.fToday) ∧
          r.self.fToday = MongoLog.Today env.today) ∧
    (∀ (self : MongoLog) (calls : List EntryCall),
      (∀ c ∈ calls, self.knownPriority c.priority ∧ c.env.clockOk ∧ c.env.rotate.succeeds ∧
        MongoLog.Today c.env.rotate.today = MongoLog.Today c.env.today) →
        ∃ final rs, MongoLog.runEntries self calls = some (final, rs) ∧
          rs.length = calls.length ∧ (∀ r ∈ rs, r.exit ≠ Exit.threw) ∧
          rotationCount rs
            = dayChanges self.fToday (calls.map fun c => MongoLog.Today c.env.today) ∧
          final.fToday
            = ((calls.map fun c => MongoLog.Today c.env.today).getLast?).getD self.fToday) ∧
    (sampleLogger.fToday = 20240228 ∧
      ∃ final rs, MongoLog.runEntries sampleLogger
          [{ priority := 0, message := "before midnight", env := worldAt 2024 2 28 true },
           { priority := 1, message := "leap day", env := worldAt 2024 2 29 true },
           { priority := 2, message := "first of March", env := worldAt 2024 3 1 true }]
          = some (final, rs) ∧
        rotationCount rs = 2 ∧ final.fToday = 20240301) := by
  refine ⟨?_, ?_, rfl, ?_⟩
  · intro self priority message env hp hclock hok hsame
    obtain ⟨r, hr, hexit, hrot, hday, _⟩ :=
      Entry_tracks_day self priority message env hp hclock hok hsame
    exact ⟨r, hr, hexit, hrot, hday⟩
  · intro self calls h
    exact runEntries_rotations calls self h
  · obtain ⟨final, rs, hrun, _, _, hcount, hfinal⟩ := runEntries_rotations
      [{ priority := 0, message := "before midnight", env := worldAt 2024 2 28 true },
       { priority := 1, message := "leap day", env := worldAt 2024 2 29 true },
       { priority := 2, message := "first of March", env := worldAt 2024 3 1 true }]
      sampleLogger (by decide)
    refine ⟨final, rs, hrun, ?_, ?_⟩
    · rw [hcount]; decide
    · rw [hfinal]; decide

/-- C4, at a concrete call: the entry of 2024-02-29 on the sample logger, tracked for
2024-02-28, rotates and leaves the tracked day at 20240229. -/
theorem C4_rotation_once_per_day_change_witness :
    sampleLogger.knownPriority 1 ∧ (worldAt 2024 2 29 true).clockOk ∧
    (worldAt 2024 2 29 true).rotate.succeeds ∧
    MongoLog.Today (worldAt 2024 2 29 true).rotate.today
      = MongoLog.Today (worldAt 2024 2 29 true).today ∧
    ∃ r, MongoLog.Entry sampleLogger 1 "leap day" (worldAt 2024 2 29 true) = some r ∧
      r.exit ≠ Exit.threw ∧
      (r.rotation.isSome = true ↔
        MongoLog.Today (worldAt 2024 2 29 true).today ≠ sampleLogger.fToday) ∧
      r.self.fToday = MongoLog.Today (worldAt 2024 2 29 true).today :=
  ⟨by decide, by decide, by decide, by decide,
    C4_rotation_once_per_day_change.1 sampleLogger 1 "leap day" (worldAt 2024 2 29 true)
      (by decide) (by decide) (by decide) (by decide)⟩


/-! ## Retention switched off -/

/-- C6: with a retention window of 0 no expiry date is computed.  For every logger with
`fDeleteAfterDays == 0`, every date and every world in which the directory and the
file are available, `RotateLogFile` returns 0 right after the init banner and the
update of the tracked day: its actions are the optional close, the console line,
the open and the banner, so no file is removed and no deletion-outcome line is
written.  This needs only a defined path and a time stamp that fits, never the
expiry date and never the answers of `exists` and `remove` for the expired file;
path and time stamp exist for every clock reading. -/
theorem C6_window_zero_skips_cleanup :
    (∀ (self : MongoLog) (env : RotateEnv) (filename stamp : String),
      self.fDeleteAfterDays = 0 → env.opens →
      MongoLog.LogFilePath self env.today = some filename →
      MongoLog.FormatTime env.today env.ms = some stamp →
        MongoLog.RotateLogFile self env = some
          { exit := Exit.returned 0
            self := { self with fOutfile := some filename, fToday := MongoLog.Today env.today }
            events := (if self.fOutfile.isSome then [Event.close] else []) ++
              [Event.console ("Logging to " ++ quoted filename ++ "\n"),
               Event.openAppend filename true,
               Event.fileWrite (stamp ++ " [INIT]: logfile initialized: commit " ++
                 REDAX_BUILD_COMMIT ++ "\n") true] }) ∧
    (∀ (self : MongoLog) (env : RotateEnv),
      self.fDeleteAfterDays = 0 → env.opens → clockReading env.today env.ms →
        ∃ r, MongoLog.RotateLogFile self env = some r ∧ r.exit = Exit.returned 0 ∧
          r.self.fToday = MongoLog.Today env.today ∧
          (∀ path, Event.remove path ∉ r.events) ∧
          (∃ banner, r.events.getLast? = some (Event.fileWrite banner true) ∧
            r.events.filter Event.isFileWrite = [Event.fileWrite banner true])) := by
  constructor
  · intro self env filename stamp hw hok hpath hstamp
    exact RotateLogFile_window0 self env filename stamp hpath hstamp hok hw
  · intro self env hw hok hclock
    obtain ⟨filename, hpath⟩ := LogFilePath_defined self env.today env.ms hclock
    obtain ⟨stamp, hstamp, _⟩ := FormatTime_defined env.today env.ms hclock
    refine ⟨_, RotateLogFile_window0 self env filename stamp hpath hstamp hok hw, rfl, rfl, ?_, ?_⟩
    · intro path
      cases hf : self.fOutfile <;> simp [hf]
    · refine ⟨stamp ++ " [INIT]: logfile initialized: commit " ++ REDAX_BUILD_COMMIT ++ "\n", ?_, ?_⟩
      · cases hf : self.fOutfile <;> simp [hf]
      · cases hf : self.fOutfile <;> simp [hf, List.filter_cons, Event.isFileWrite]

/-- C6, at a concrete rotation: the logger without retention on 2024-03-02. -/
theorem C6_window_zero_skips_cleanup_witness :
    sampleLoggerKeepAll.fDeleteAfterDays = 0 ∧ (worldAt 2024 3 2 true).rotate.opens ∧
    MongoLog.LogFilePath sampleLoggerKeepAll (worldAt 2024 3 2 true).rotate.today
      = some "/data/logs/20240302_reader0.log" ∧
    MongoLog.FormatTime (worldAt 2024 3 2 true).rotate.today (worldAt 2024 3 2 true).rotate.ms
      = some "2024-03-02 12:00:00.001" ∧
    MongoLog.RotateLogFile sampleLoggerKeepAll (worldAt 2024 3 2 true).rotate = some
      { exit := Exit.returned 0
        self := { sampleLoggerKeepAll with
          fOutfile := some "/data/logs/20240302_reader0.log"
          fToday := MongoLog.Today (worldAt 2024 3 2 true).rotate.today }
        events := (if sampleLoggerKeepAll.fOutfile.isSome then [Event.close] else []) ++
          [Event.console ("Logging to " ++ quoted "/data/logs/20240302_reader0.log" ++ "\n"),
           Event.openAppend "/data/logs/20240302_reader0.log" true,
           Event.fileWrite ("2024-03-02 12:00:00.001" ++ " [INIT]: logfile initialized: commit " ++
             REDAX_BUILD_COMMIT ++ "\n") true] } :=
  ⟨rfl, by decide, by decide, by decide,
    C6_window_zero_skips_cleanup.1 sampleLoggerKeepAll (worldAt 2024 3 2 true).rotate
      "/data/logs/20240302_reader0.log" "2024-03-02 12:00:00.001" rfl (by decide) (by decide)
      (by decide)⟩


/-! ## The severity label -/

/-- C9 fails as stated: with the six labels of the sample table the priorities -2 and 5
index outside the table, where the unchecked `operator[]` of line 132 has no value
(there is no fallback label), and `Entry` with such a priority has no defined
outcome. -/
theorem C9_counterexample_priority_outside_table :
    vectorAt sampleLogger.fPriorities ((-2 : Int) + 1) = none ∧
    vectorAt sampleLogger.fPriorities ((5 : Int) + 1) = none ∧
    MongoLog.Entry sampleLogger (-2) "out of range" (worldAt 2024 2 28 true) = none ∧
    MongoLog.Entry sampleLogger 5 "out of range" (worldAt 2024 2 28 true) = none := by
  decide

/-- C9 as amended: the severity label that `Entry` prints is `fPriorities[priority+1]`,
looked up without a check.  First part: whatever the world answers, an `Entry` call
has an outcome only if `0 <= priority + 1 < size`, and then its first action is the
console line `<time stamp> [<label>]: <message>` whose label is the entry of the
table at index `priority + 1`.  Second part: for such a priority and clock readings
in range the call does have an outcome.  Third part: for every other priority the
call has no defined outcome; the source has no fallback label. -/
theorem C9_label_is_table_entry_at_priority_plus_one (self : MongoLog) (priority : Int)
    (message : String) (env : EntryEnv) :
    (∀ r, MongoLog.Entry self priority message env = some r →
      (0 ≤ priority + 1 ∧ priority + 1 < self.fPriorities.length) ∧
      ∃ stamp label, MongoLog.FormatTime env.today env.ms = some stamp ∧
        self.fPriorities.get? (priority + 1).toNat = some label ∧ label ∈ self.fPriorities ∧
        r.events.head?
          = some (Event.console (stamp ++ " [" ++ label ++ "]: " ++ message ++ "\n"))) ∧
    (0 ≤ priority + 1 ∧ priority + 1 < self.fPriorities.length → env.clockOk →
      ∃ r, MongoLog.Entry self priority message env = some r) ∧
    (¬ (0 ≤ priority + 1 ∧ priority + 1 < self.fPriorities.length) →
      MongoLog.Entry self priority message env = none) := by
  have hfirst : ∀ r, MongoLog.Entry self priority message env = some r →
      (0 ≤ priority + 1 ∧ priority + 1 < self.fPriorities.length) ∧
      ∃ stamp label, MongoLog.FormatTime env.today env.ms = some stamp ∧
        self.fPriorities.get? (priority + 1).toNat = some label ∧ label ∈ self.fPriorities ∧
        r.events.head?
          = some (Event.console (stamp ++ " [" ++ label ++ "]: " ++ message ++ "\n")) := by
    intro r h
    rcases Entry_cases self priority message env with hn | ⟨r', stamp, label, hr', hs, hl, hhead, _⟩
    · rw [hn] at h; cases h
    · rw [hr'] at h
      cases h
      obtain ⟨hknown, hget⟩ := knownPriority_of_vectorAt self priority label hl
      exact ⟨hknown, stamp, label, hs, hget, List.get?_mem hget, hhead⟩
  refine ⟨hfirst, ?_, ?_⟩
  · intro hp hclock
    exact Entry_defined self priority message env hp hclock
  · intro hout
    rcases Option.eq_none_or_eq_some (MongoLog.Entry self priority message env) with
      hn | ⟨r, hr⟩
    · exact hn
    · exact absurd (hfirst r hr).1 hout

/-- C9 as amended, at a concrete call: a warning (priority 2) on the sample logger is
printed with the label at index 3 of the table. -/
theorem C9_label_is_table_entry_at_priority_plus_one_witness :
    (0 ≤ (2 : Int) + 1 ∧ (2 : Int) + 1 < sampleLogger.fPriorities.length) ∧
    (worldAt 2024 2 28 true).clockOk ∧
    sampleLogger.fPriorities.get? ((2 : Int) + 1).toNat = some "WARNING" ∧
    (MongoLog.Entry sampleLogger 2 "run started" (worldAt 2024 2 28 true)).map
      (fun r => r.events.head?)
      = some (some (Event.console "2024-02-28 12:00:00.000 [WARNING]: run started\n")) ∧
    ∃ r, MongoLog.Entry sampleLogger 2 "run started" (worldAt 2024 2 28 true) = some r :=
  ⟨by decide, by decide, by decide, by decide,
    (C9_label_is_table_entry_at_priority_plus_one sampleLogger 2 "run started"
      (worldAt 2024 2 28 true)).2.1 (by decide) (by decide)⟩
end Redax
